import Mathlib

/-!
# go-httpbin: compat serialisation, route table, middleware wiring, configuration

A shallow embedding of `httpbin/httpbin.go`.

* Go maps are association lists in iteration order (`GoMap`), with the nil map kept apart
  from the allocated empty map; Go slices likewise (`GoSlice`).
* Operations that can panic or return an error return `Except GoError`.
* `encoding/json` is represented by its output tree (`Json`) and by the encoder's documented
  behaviour on the Go values that occur here.
* `net/http.ServeMux` is represented by its registration table and its matching rules.
-/

namespace httpbin

/-! ## Go values -/

/-- Failures of the embedded Go code: run-time panics and the errors it returns. -/
inductive GoError where
  /-- The panic `assignment to entry in nil map`. -/
  | assignmentToNilMap
  /-- The panic `index out of range`. -/
  | indexOutOfRange
  /-- The error `json.UnsupportedValueError` (a NaN or infinite float). -/
  | unsupportedValue
  /-- The panic `http: invalid pattern` of `ServeMux.Handle`. -/
  | invalidPattern
  /-- The panic `http: multiple registrations for <pattern>` of `ServeMux.Handle`. -/
  | multipleRegistrations (pattern : String)
deriving DecidableEq

/-- A Go slice `[]α`: the nil slice, or an allocated slice with its elements in order. -/
inductive GoSlice (α : Type) where
  | nil
  | mk (elems : List α)
deriving DecidableEq

namespace GoSlice

variable {α : Type}

/-- The elements of a slice; the nil slice has none. -/
def toList : GoSlice α → List α
  | .nil => []
  | .mk xs => xs

/-- The Go builtin `len(s)`. -/
def len (s : GoSlice α) : Nat := s.toList.length

/-- The Go expression `s[i]`, which panics when `i` is out of range. -/
def index (s : GoSlice α) (i : Nat) : Except GoError α :=
  match s.toList.get? i with
  | some x => .ok x
  | none => .error .indexOutOfRange

end GoSlice

/-- A Go map `map[string]V`: the nil map, or an allocated map. The entries of an allocated
map are listed in the order in which a `range` loop visits them. -/
inductive GoMap (V : Type) where
  | nil
  | mk (entries : List (String × V))
deriving DecidableEq

/-- The Go statement `m[k] = v` on the entries of an allocated map: replace the value of an
existing key, or add the key. -/
def assign {V : Type} : List (String × V) → String → V → List (String × V)
  | [], k, v => [(k, v)]
  | (k', v') :: rest, k, v =>
    if k' = k then (k, v) :: rest else (k', v') :: assign rest k v

/-- The value stored under `k` in a list of entries. -/
def find {V : Type} : List (String × V) → String → Option V
  | [], _ => none
  | (k', v') :: rest, k => if k' = k then some v' else find rest k

namespace GoMap

variable {V : Type}

/-- The Go expression `make(map[string]V)`: an allocated map without entries. -/
def make : GoMap V := .mk []

/-- The entries of a map; the nil map has none. -/
def entries : GoMap V → List (String × V)
  | .nil => []
  | .mk es => es

/-- The keys of a map, in iteration order. -/
def keys (m : GoMap V) : List String := m.entries.map Prod.fst

/-- Keys of a Go map are pairwise distinct. -/
def WF (m : GoMap V) : Prop := m.keys.Nodup

instance (m : GoMap V) : Decidable m.WF := by unfold WF; infer_instance

/-- The Go expression `v, ok := m[k]`: `none` when the key is absent. -/
def lookup (m : GoMap V) (k : String) : Option V := find m.entries k

/-- The Go statement `m[k] = v`, which panics on the nil map. -/
def store : GoMap V → String → V → Except GoError (GoMap V)
  | .nil, _, _ => .error .assignmentToNilMap
  | .mk es, k, v => .ok (.mk (assign es k v))

/-- The Go loop `for k, v := range m { body }`, threading the state the body updates. -/
def rangeM {σ : Type} (m : GoMap V) (init : σ) (body : σ → String → V → Except GoError σ) :
    Except GoError σ :=
  m.entries.foldlM (fun s e => body s e.1 e.2) init

end GoMap

/-- A `float64`: a finite value `mantissa * 2 ^ exponent`, NaN, or an infinity. -/
inductive Float64 where
  | finite (mantissa exponent : Int)
  | nan
  | inf (negative : Bool)
deriving DecidableEq

/-- The values an `interface{}` holds in this program: the scalar and the list a compat map
stores, and what a decoded JSON document consists of. A `float64` may be non-finite. -/
inductive GoAny where
  /-- The nil interface value. -/
  | nil
  | bool (b : Bool)
  | float64 (f : Float64)
  | string (s : String)
  /-- A `[]string`, possibly the nil slice. -/
  | strings (xs : GoSlice String)
  /-- An allocated `[]interface{}`. -/
  | slice (xs : List GoAny)
  /-- An allocated `map[string]interface{}`. -/
  | map (kvs : List (String × GoAny))

/-! ## encoding/json -/

/-- A JSON document, as written by `json.Marshal`. A number is `mantissa * 2 ^ exponent`. -/
inductive Json where
  | null
  | bool (b : Bool)
  | num (mantissa exponent : Int)
  | str (s : String)
  | arr (items : List Json)
  | obj (fields : List (String × Json))

namespace Json

/-- The member of a JSON object named `k`; `none` when absent or when not an object. -/
def field (j : Json) (k : String) : Option Json :=
  match j with
  | .obj fs => find fs k
  | _ => none

/-- The member names of a JSON object, in the order written. -/
def fieldNames : Json → List String
  | .obj fs => fs.map Prod.fst
  | _ => []

end Json

/-- Strict order of two strings by code point, which is the byte order of their UTF-8
encodings. -/
def lessChars : List Char → List Char → Bool
  | [], [] => false
  | [], _ :: _ => true
  | _ :: _, [] => false
  | a :: as, b :: bs => a.toNat < b.toNat || (a.toNat == b.toNat && lessChars as bs)

/-- The order in which `json.Marshal` writes map keys. -/
def keyLE (a b : String) : Prop := lessChars b.data a.data = false

instance : DecidableRel keyLE := fun a b => by unfold keyLE; infer_instance

/-- Sort object members by key, as `json.Marshal` does for a Go map. -/
def sortKeys {V : Type} (l : List (String × V)) : List (String × V) :=
  l.insertionSort (fun a b => keyLE a.1 b.1)

mutual
/-- The encoding of an `interface{}` value by `json.Marshal`: a nil slice is written as
`null`, a map as an object with sorted keys, and a non-finite float is an error. -/
def jsonMarshalAny : GoAny → Except GoError Json
  | .nil => .ok .null
  | .bool b => .ok (.bool b)
  | .float64 (.finite m e) => .ok (.num m e)
  | .float64 .nan => .error .unsupportedValue
  | .float64 (.inf _) => .error .unsupportedValue
  | .string s => .ok (.str s)
  | .strings .nil => .ok .null
  | .strings (.mk xs) => .ok (.arr (xs.map .str))
  | .slice xs => (jsonMarshalList xs).map .arr
  | .map kvs => (jsonMarshalFields kvs).map (fun fs => .obj (sortKeys fs))
/-- The encoding of the elements of a `[]interface{}`. -/
def jsonMarshalList : List GoAny → Except GoError (List Json)
  | [] => .ok []
  | x :: xs => do
    let j ← jsonMarshalAny x
    let js ← jsonMarshalList xs
    pure (j :: js)
/-- The encoding of the entries of a `map[string]interface{}`. -/
def jsonMarshalFields : List (String × GoAny) → Except GoError (List (String × Json))
  | [] => .ok []
  | (k, v) :: rest => do
    let j ← jsonMarshalAny v
    let js ← jsonMarshalFields rest
    pure ((k, j) :: js)
end

/-- The encoding of a struct field of type `map[string]interface{}`: the nil map is written
as `null`, an allocated map as an object with sorted keys. -/
def jsonMarshalMap : GoMap GoAny → Except GoError Json
  | .nil => .ok .null
  | .mk es => (jsonMarshalFields es).map (fun fs => .obj (sortKeys fs))

/-! ## Response types and their `MarshalJSON` methods -/

structure headersResponse where
  Headers : GoMap (GoSlice String)

structure headersResponseCompat where
  Headers : GoMap GoAny

structure getResponse where
  Args : GoMap (GoSlice String)
  Headers : GoMap (GoSlice String)
  Origin : String
  URL : String

structure getResponseCompat where
  Args : GoMap GoAny
  Headers : GoMap GoAny
  Origin : String
  URL : String

structure bodyResponse where
  Args : GoMap (GoSlice String)
  Headers : GoMap (GoSlice String)
  Origin : String
  URL : String
  Data : String
  Files : GoMap (GoSlice String)
  Form : GoMap (GoSlice String)
  JSON : GoAny

structure bodyResponseCompat where
  Args : GoMap GoAny
  Headers : GoMap GoAny
  Origin : String
  URL : String
  Data : String
  Files : GoMap GoAny
  Form : GoMap GoAny
  JSON : GoAny

structure gzipResponse where
  Headers : GoMap (GoSlice String)
  Origin : String
  Gzipped : Bool

structure gzipResponseCompat where
  Headers : GoMap GoAny
  Origin : String
  Gzipped : Bool

structure deflateResponse where
  Headers : GoMap (GoSlice String)
  Origin : String
  Deflated : Bool

structure deflateResponseCompat where
  Headers : GoMap GoAny
  Origin : String
  Deflated : Bool

structure streamResponse where
  ID : Int
  Args : GoMap (GoSlice String)
  Headers : GoMap (GoSlice String)
  Origin : String
  URL : String

structure streamResponseCompat where
  ID : Int
  Args : GoMap GoAny
  Headers : GoMap GoAny
  Origin : String
  URL : String

/-- The `json.Marshal` encoding of a `headersResponseCompat`, one member per struct tag. -/
def headersResponseCompat.jsonMarshal (c : headersResponseCompat) : Except GoError Json := do
  let headers ← jsonMarshalMap c.Headers
  pure (.obj [("headers", headers)])

/-- The `json.Marshal` encoding of a `getResponseCompat`, one member per struct tag. -/
def getResponseCompat.jsonMarshal (c : getResponseCompat) : Except GoError Json := do
  let args ← jsonMarshalMap c.Args
  let headers ← jsonMarshalMap c.Headers
  pure (.obj [("args", args), ("headers", headers), ("origin", .str c.Origin),
    ("url", .str c.URL)])

/-- The `json.Marshal` encoding of a `bodyResponseCompat`, one member per struct tag. -/
def bodyResponseCompat.jsonMarshal (c : bodyResponseCompat) : Except GoError Json := do
  let args ← jsonMarshalMap c.Args
  let headers ← jsonMarshalMap c.Headers
  let files ← jsonMarshalMap c.Files
  let form ← jsonMarshalMap c.Form
  let json ← jsonMarshalAny c.JSON
  pure (.obj [("args", args), ("headers", headers), ("origin", .str c.Origin),
    ("url", .str c.URL), ("data", .str c.Data), ("files", files), ("form", form),
    ("json", json)])

/-- The `json.Marshal` encoding of a `gzipResponseCompat`, one member per struct tag. -/
def gzipResponseCompat.jsonMarshal (c : gzipResponseCompat) : Except GoError Json := do
  let headers ← jsonMarshalMap c.Headers
  pure (.obj [("headers", headers), ("origin", .str c.Origin), ("gzipped", .bool c.Gzipped)])

/-- The `json.Marshal` encoding of a `deflateResponseCompat`, one member per struct tag. -/
def deflateResponseCompat.jsonMarshal (c : deflateResponseCompat) : Except GoError Json := do
  let headers ← jsonMarshalMap c.Headers
  pure (.obj [("headers", headers), ("origin", .str c.Origin),
    ("deflated", .bool c.Deflated)])

/-- The `json.Marshal` encoding of a `streamResponseCompat`, one member per struct tag. -/
def streamResponseCompat.jsonMarshal (c : streamResponseCompat) : Except GoError Json := do
  let args ← jsonMarshalMap c.Args
  let headers ← jsonMarshalMap c.Headers
  pure (.obj [("id", .num c.ID 0), ("args", args), ("headers", headers),
    ("origin", .str c.Origin), ("url", .str c.URL)])

/-- The body of `headersResponse.MarshalJSON` up to its `return`: the compat value. -/
def headersResponse.compat (hr : headersResponse) : Except GoError headersResponseCompat := do
  let hrCompat : headersResponseCompat := { Headers := GoMap.make }
  let hrCompat ← hr.Headers.rangeM hrCompat fun hrCompat k headers =>
    if headers.len ≠ 1 then do
      pure { hrCompat with Headers := ← hrCompat.Headers.store k (.strings headers) }
    else do
      pure { hrCompat with Headers := ← hrCompat.Headers.store k (.string (← headers.index 0)) }
  pure hrCompat

def headersResponse.MarshalJSON (hr : headersResponse) : Except GoError Json := do
  let hrCompat ← hr.compat
  hrCompat.jsonMarshal

/-- The body of `getResponse.MarshalJSON` up to its `return`: the compat value. -/
def getResponse.compat (gr : getResponse) : Except GoError getResponseCompat := do
  let grCompat : getResponseCompat :=
    { Args := GoMap.make, Headers := GoMap.make, Origin := gr.Origin, URL := gr.URL }
  let grCompat ← gr.Args.rangeM grCompat fun grCompat k args =>
    if args.len ≠ 1 then do
      pure { grCompat with Args := ← grCompat.Args.store k (.strings args) }
    else do
      pure { grCompat with Args := ← grCompat.Args.store k (.string (← args.index 0)) }
  let grCompat ← gr.Headers.rangeM grCompat fun grCompat k headers =>
    if headers.len ≠ 1 then do
      pure { grCompat with Headers := ← grCompat.Headers.store k (.strings headers) }
    else do
      pure { grCompat with Headers := ← grCompat.Headers.store k (.string (← headers.index 0)) }
  pure grCompat

def getResponse.MarshalJSON (gr : getResponse) : Except GoError Json := do
  let grCompat ← gr.compat
  grCompat.jsonMarshal

/-- The body of `bodyResponse.MarshalJSON` up to its `return`: the compat value. -/
def bodyResponse.compat (br : bodyResponse) : Except GoError bodyResponseCompat := do
  let brCompat : bodyResponseCompat :=
    { Args := GoMap.make, Headers := GoMap.make, Origin := br.Origin, URL := br.URL,
      Data := br.Data, Files := GoMap.make, Form := GoMap.make, JSON := br.JSON }
  let brCompat ← br.Args.rangeM brCompat fun brCompat k args =>
    if args.len ≠ 1 then do
      pure { brCompat with Args := ← brCompat.Args.store k (.strings args) }
    else do
      pure { brCompat with Args := ← brCompat.Args.store k (.string (← args.index 0)) }
  let brCompat ← br.Headers.rangeM brCompat fun brCompat k headers =>
    if headers.len ≠ 1 then do
      pure { brCompat with Headers := ← brCompat.Headers.store k (.strings headers) }
    else do
      pure { brCompat with Headers := ← brCompat.Headers.store k (.string (← headers.index 0)) }
  let brCompat ← br.Files.rangeM brCompat fun brCompat k files =>
    if files.len ≠ 1 then do
      pure { brCompat with Files := ← brCompat.Files.store k (.strings files) }
    else do
      pure { brCompat with Files := ← brCompat.Files.store k (.string (← files.index 0)) }
  let brCompat ← br.Form.rangeM brCompat fun brCompat k forms =>
    if forms.len ≠ 1 then do
      pure { brCompat with Form := ← brCompat.Form.store k (.strings forms) }
    else do
      pure { brCompat with Form := ← brCompat.Form.store k (.string (← forms.index 0)) }
  pure brCompat

def bodyResponse.MarshalJSON (br : bodyResponse) : Except GoError Json := do
  let brCompat ← br.compat
  brCompat.jsonMarshal

/-- The body of `gzipResponse.MarshalJSON` up to its `return`: the compat value. -/
def gzipResponse.compat (gr : gzipResponse) : Except GoError gzipResponseCompat := do
  let grCompat : gzipResponseCompat :=
    { Headers := GoMap.make, Origin := gr.Origin, Gzipped := gr.Gzipped }
  let grCompat ← gr.Headers.rangeM grCompat fun grCompat k headers =>
    if headers.len ≠ 1 then do
      pure { grCompat with Headers := ← grCompat.Headers.store k (.strings headers) }
    else do
      pure { grCompat with Headers := ← grCompat.Headers.store k (.string (← headers.index 0)) }
  pure grCompat

def gzipResponse.MarshalJSON (gr : gzipResponse) : Except GoError Json := do
  let grCompat ← gr.compat
  grCompat.jsonMarshal

/-- The body of `deflateResponse.MarshalJSON` up to its `return`: the compat value. -/
def deflateResponse.compat (dr : deflateResponse) : Except GoError deflateResponseCompat := do
  let drCompat : deflateResponseCompat :=
    { Headers := GoMap.make, Origin := dr.Origin, Deflated := dr.Deflated }
  let drCompat ← dr.Headers.rangeM drCompat fun drCompat k headers =>
    if headers.len ≠ 1 then do
      pure { drCompat with Headers := ← drCompat.Headers.store k (.strings headers) }
    else do
      pure { drCompat with Headers := ← drCompat.Headers.store k (.string (← headers.index 0)) }
  pure drCompat

def deflateResponse.MarshalJSON (dr : deflateResponse) : Except GoError Json := do
  let drCompat ← dr.compat
  drCompat.jsonMarshal

/-- The body of `streamResponse.MarshalJSON` up to its `return`: the compat value. -/
def streamResponse.compat (sr : streamResponse) : Except GoError streamResponseCompat := do
  let srCompat : streamResponseCompat :=
    { ID := sr.ID, Args := GoMap.make, Headers := GoMap.make, Origin := sr.Origin,
      URL := sr.URL }
  let srCompat ← sr.Args.rangeM srCompat fun srCompat k args =>
    if args.len ≠ 1 then do
      pure { srCompat with Args := ← srCompat.Args.store k (.strings args) }
    else do
      pure { srCompat with Args := ← srCompat.Args.store k (.string (← args.index 0)) }
  let srCompat ← sr.Headers.rangeM srCompat fun srCompat k headers =>
    if headers.len ≠ 1 then do
      pure { srCompat with Headers := ← srCompat.Headers.store k (.strings headers) }
    else do
      pure { srCompat with Headers := ← srCompat.Headers.store k (.string (← headers.index 0)) }
  pure srCompat

def streamResponse.MarshalJSON (sr : streamResponse) : Except GoError Json := do
  let srCompat ← sr.compat
  srCompat.jsonMarshal

/-- The Go builtin `len(m)` on a map; the nil map has length zero. -/
def GoMap.len {V : Type} (m : GoMap V) : Nat := m.entries.length

/-! ## Auxiliary definitions for the statements -/

/-- The value a compat loop stores for the values `vs` of one key. -/
def compatValue (vs : GoSlice String) : GoAny :=
  match vs.toList with
  | [v] => .string v
  | _ => .strings vs

/-- The entries of a compat map after a loop over `l`, started from the entries `acc`. -/
def compatEntries (l : List (String × GoSlice String)) (acc : List (String × GoAny)) :
    List (String × GoAny) :=
  l.foldl (fun acc e => assign acc e.1 (compatValue e.2)) acc

/-- The JSON that `json.Marshal` writes for a value, `null` standing in where it fails. -/
def jsonOf (v : GoAny) : Json :=
  match jsonMarshalAny v with
  | .ok j => j
  | .error _ => .null

/-- The object `json.Marshal` writes for the compat map built from the multimap `M`. -/
def compatObject (M : GoMap (GoSlice String)) : Json :=
  .obj (sortKeys ((compatEntries M.entries []).map fun e => (e.1, jsonOf e.2)))

/-- The compat rule between a multimap `M` and the compat map `out` built from it: at every
key, `out` holds a bare string exactly when `M` has one value there, that string is `M[k][0]`,
any other number of values is stored as the list itself, and both maps have the same keys. -/
def CompatRule (M : GoMap (GoSlice String)) (out : GoMap GoAny) : Prop :=
  ∀ k : String,
    ((∃ s, out.lookup k = some (.string s)) ↔ ∃ vs, M.lookup k = some vs ∧ vs.len = 1) ∧
    (∀ s, out.lookup k = some (.string s) →
      ∃ vs, M.lookup k = some vs ∧ vs.index 0 = .ok s) ∧
    (∀ vs, M.lookup k = some vs → vs.len ≠ 1 → out.lookup k = some (.strings vs)) ∧
    (k ∈ out.keys ↔ k ∈ M.keys)

/-- The member `k` of the member `name` of a JSON object. -/
def Json.member (j : Json) (name k : String) : Option Json :=
  (j.field name).bind fun o => o.field k

/-! ### Sample responses -/

/-- A `headersResponse` with one single-valued header. -/
def sampleHeadersResponse : headersResponse :=
  { Headers := .mk [("Accept", .mk ["*/*"])] }

/-- A `getResponse` with a repeated argument and a single-valued header. -/
def sampleGetResponse : getResponse :=
  { Args := .mk [("a", .mk ["1", "2"])], Headers := .mk [("Host", .mk ["example.org"])],
    Origin := "127.0.0.1", URL := "http://example.org/get?a=1&a=2" }

/-- A `bodyResponse` with a nil `Files`, an empty `Form` and a decoded JSON body. -/
def sampleBodyResponse : bodyResponse :=
  { Args := .mk [("a", .mk ["1"])], Headers := .mk [("Host", .mk ["example.org"])],
    Origin := "127.0.0.1", URL := "http://example.org/post?a=1", Data := "[true]",
    Files := .nil, Form := .make, JSON := .slice [.bool true] }

/-- A `gzipResponse`. -/
def sampleGzipResponse : gzipResponse :=
  { Headers := .mk [("Host", .mk ["example.org"])], Origin := "127.0.0.1", Gzipped := true }

/-- A `deflateResponse`. -/
def sampleDeflateResponse : deflateResponse :=
  { Headers := .mk [("Host", .mk ["example.org"])], Origin := "127.0.0.1", Deflated := true }

/-- A `streamResponse` without arguments. -/
def sampleStreamResponse : streamResponse :=
  { ID := 0, Args := .nil, Headers := .mk [("Host", .mk ["example.org"])],
    Origin := "127.0.0.1", URL := "http://example.org/stream/1" }

/-- A `bodyResponse` whose argument `a` is present with the nil list of values and whose
form field `b` is present with an empty list of values. -/
def zeroValuesBodyResponse : bodyResponse :=
  { Args := .mk [("a", .nil)], Headers := .nil, Origin := "", URL := "", Data := "",
    Files := .nil, Form := .mk [("b", .mk [])], JSON := .nil }

/-- A `bodyResponse` with the multimap fields of `nanBodyResponse` and a nil `JSON` field. -/
def nilJSONBodyResponse : bodyResponse :=
  { Args := .nil, Headers := .nil, Origin := "", URL := "", Data := "",
    Files := .nil, Form := .nil, JSON := .nil }

/-- A `bodyResponse` whose `JSON` field holds the `float64` NaN. -/
def nanBodyResponse : bodyResponse :=
  { Args := .nil, Headers := .nil, Origin := "", URL := "", Data := "",
    Files := .nil, Form := .nil, JSON := .float64 .nan }

/-! ## Configuration -/

/-- The constant `time.Second`, a `time.Duration` in nanoseconds. -/
def Second : Int := 1000000000

def DefaultMaxBodySize : Int := 1024 * 1024

def DefaultMaxDuration : Int := 10 * Second

/-- The type `DefaultParams`: default parameter values. -/
structure DefaultParams where
  DripDuration : Int
  DripDelay : Int
  DripNumBytes : Int
deriving DecidableEq

def DefaultDefaultParams : DefaultParams :=
  { DripDuration := 2 * Second, DripDelay := 2 * Second, DripNumBytes := 10 }

/-- The type `HTTPBin`. The callback type `Observer` is declared outside `httpbin.go` and is
kept abstract; a nil callback is `none`. -/
structure HTTPBin (Observer : Type) where
  MaxBodySize : Int
  MaxDuration : Int
  Observer : Option Observer
  DefaultParams : DefaultParams

/-- The type `OptionFunc`: a function that updates the `HTTPBin` it is given. -/
abbrev OptionFunc (Observer : Type) := HTTPBin Observer → HTTPBin Observer

def New {Observer : Type} (opts : List (OptionFunc Observer)) : HTTPBin Observer :=
  let h : HTTPBin Observer :=
    { MaxBodySize := DefaultMaxBodySize, MaxDuration := DefaultMaxDuration,
      Observer := none, DefaultParams := DefaultDefaultParams }
  opts.foldl (fun h opt => opt h) h

def WithDefaultParams {Observer : Type} (defaultParams : DefaultParams) :
    OptionFunc Observer :=
  fun h => { h with DefaultParams := defaultParams }

def WithMaxBodySize {Observer : Type} (m : Int) : OptionFunc Observer :=
  fun h => { h with MaxBodySize := m }

def WithMaxDuration {Observer : Type} (d : Int) : OptionFunc Observer :=
  fun h => { h with MaxDuration := d }

def WithObserver {Observer : Type} (o : Option Observer) : OptionFunc Observer :=
  fun h => { h with Observer := o }

/-! ## net/http: ServeMux -/

/-- The handler methods of `HTTPBin` that `Handler` registers as endpoints. -/
inductive Endpoint where
  | Index | FormsPost | UTF8 | RequestWithBody | Get | IP | UserAgent | Headers
  | ResponseHeaders | Status | Unstable | Redirect | RelativeRedirect | AbsoluteRedirect
  | RedirectTo | Cookies | SetCookies | DeleteCookies | BasicAuth | HiddenBasicAuth
  | DigestAuth | Bearer | Deflate | Gzip | Stream | Delay | Drip | Range | Bytes
  | StreamBytes | HTML | Robots | Deny | Cache | CacheControl | ETag | Links
  | ImageAccept | Image | XML | JSON | UUID | Base64
deriving DecidableEq

/-- The handler expressions that `Handler` passes to `mux.HandleFunc`. -/
inductive HandlerFunc where
  /-- A method value `h.X`. -/
  | endpoint (e : Endpoint)
  /-- The call `methods(f, allowed...)`. -/
  | methods (f : HandlerFunc) (allowed : List String)
  /-- The function `http.NotFound`. -/
  | NotFound
  | notImplementedHandler
deriving DecidableEq

/-- The type `muxEntry` of `net/http`. -/
structure muxEntry where
  h : HandlerFunc
  pattern : String
deriving DecidableEq

/-- The type `ServeMux` of `net/http`: the map from pattern to entry, and the entries whose
pattern ends in a slash, sorted from longest to shortest. Host-specific patterns are left
out: every pattern registered here begins with a slash. -/
structure ServeMux where
  m : GoMap muxEntry
  es : List muxEntry
deriving DecidableEq

/-- The function `http.NewServeMux`. -/
def NewServeMux : ServeMux := { m := .nil, es := [] }

/-- The function `appendSorted` of `net/http`: insert `e` before the first entry with a
strictly shorter pattern. -/
def appendSorted : List muxEntry → muxEntry → List muxEntry
  | [], e => [e]
  | x :: rest, e =>
    if x.pattern.utf8ByteSize < e.pattern.utf8ByteSize then e :: x :: rest
    else x :: appendSorted rest e

namespace ServeMux

/-- The method `ServeMux.HandleFunc`, which panics on an empty pattern and on a pattern
that is already registered. -/
def HandleFunc (mux : ServeMux) (pattern : String) (handler : HandlerFunc) :
    Except GoError ServeMux := do
  if pattern = "" then
    throw .invalidPattern
  if (mux.m.lookup pattern).isSome then
    throw (.multipleRegistrations pattern)
  let m := if mux.m = .nil then GoMap.make else mux.m
  let e : muxEntry := { h := handler, pattern := pattern }
  let m ← m.store pattern e
  let es := if pattern.data.getLast? = some '/' then appendSorted mux.es e else mux.es
  pure { m := m, es := es }

/-- The method `ServeMux.match`: an exact match first, then the longest registered pattern
ending in a slash that is a prefix of the path. -/
def matchPath (mux : ServeMux) (path : String) : Option muxEntry :=
  match mux.m.lookup path with
  | some v => some v
  | none => mux.es.find? fun e => e.pattern.data.isPrefixOf path.data

/-- The method `ServeMux.shouldRedirectRLocked`: the path itself is not registered and the
path followed by a slash is. -/
def shouldRedirect (mux : ServeMux) (path : String) : Bool :=
  if (mux.m.lookup path).isSome then false
  else if path.data = [] then false
  else if (mux.m.lookup (path ++ "/")).isSome then path.data.getLast? != some '/'
  else false

end ServeMux

/-- The result of `ServeMux.Handler`: a registered handler with its pattern, or the redirect
handler to the path with a trailing slash. -/
inductive Routed where
  | handler (h : HandlerFunc) (pattern : String)
  | redirect (path : String)
deriving DecidableEq

/-- The method `ServeMux.Handler` on a request path in canonical form (the form `cleanPath`
returns, as every path named below is): the trailing-slash redirect if it applies, else the
matching handler, else `http.NotFound` with the empty pattern. -/
def ServeMux.Handler (mux : ServeMux) (path : String) : Routed :=
  if mux.shouldRedirect path then .redirect (path ++ "/")
  else
    match mux.matchPath path with
    | some e => .handler e.h e.pattern
    | none => .handler .NotFound ""

/-- What answers a request. -/
inductive Outcome where
  /-- The request reaches the endpoint. -/
  | endpoint (e : Endpoint)
  /-- Status 405 with the `Allow` header. -/
  | methodNotAllowed (allow : List String)
  /-- Status 404. -/
  | notFound
  /-- Status 501. -/
  | notImplemented
  /-- Status 301 to the location. -/
  | movedPermanently (location : String)
deriving DecidableEq

/-- Modelled from the spec: the helper `methods` is declared outside `httpbin.go`. A route
declares its allowed methods; a request with one of them reaches the wrapped handler, and
a request with a disallowed method yields a method-not-allowed response carrying an `Allow`
header that enumerates the permitted methods. -/
def methods (next : String → Outcome) (allowed : List String) (method : String) : Outcome :=
  if method ∈ allowed then next method else .methodNotAllowed allowed

/-- Modelled from the spec: `notImplementedHandler` is declared outside `httpbin.go`. The
unsupported legacy endpoint responds not-implemented. -/
def notImplementedHandler (_method : String) : Outcome := .notImplemented

/-- What a registered handler does with a request of the given method. -/
def HandlerFunc.ServeHTTP : HandlerFunc → String → Outcome
  | .endpoint e, _ => .endpoint e
  | .methods f allowed, method => httpbin.methods f.ServeHTTP allowed method
  | .NotFound, _ => .notFound
  | .notImplementedHandler, method => httpbin.notImplementedHandler method

/-- The method `ServeMux.ServeHTTP`: dispatch the request to the handler `Handler` selects. -/
def ServeMux.ServeHTTP (mux : ServeMux) (method path : String) : Outcome :=
  match mux.Handler path with
  | .handler f _ => f.ServeHTTP method
  | .redirect location => .movedPermanently location

/-! ## The handler of `HTTPBin` -/

/-- An `http.Handler` built by `HTTPBin.Handler`: the route table, or a middleware applied
to a handler. The middleware functions are declared outside `httpbin.go`. -/
inductive Handler (Observer : Type) where
  | mux (routes : ServeMux)
  | limitRequestSize (maxSize : Int) (next : Handler Observer)
  | preflight (next : Handler Observer)
  | autohead (next : Handler Observer)
  | observe (o : Observer) (next : Handler Observer)

/-- The names of the middleware stages. -/
inductive Middleware where
  | limitRequestSize | preflight | autohead | observe
deriving DecidableEq

namespace Handler

variable {Observer : Type}

/-- The middleware stages of a handler from the outermost, which a request enters first,
to the innermost. -/
def stages : Handler Observer → List Middleware
  | .mux _ => []
  | .limitRequestSize _ next => .limitRequestSize :: next.stages
  | .preflight next => .preflight :: next.stages
  | .autohead next => .autohead :: next.stages
  | .observe _ next => .observe :: next.stages

/-- The route table at the core of a handler. -/
def routes : Handler Observer → ServeMux
  | .mux r => r
  | .limitRequestSize _ next => next.routes
  | .preflight next => next.routes
  | .autohead next => next.routes
  | .observe _ next => next.routes

end Handler

def HTTPBin.Handler {Observer : Type} (h : HTTPBin Observer) :
    Except GoError (httpbin.Handler Observer) := do
  let mux := NewServeMux

  let mux ← mux.HandleFunc "/" (.methods (.endpoint .Index) ["GET"])
  let mux ← mux.HandleFunc "/forms/post" (.methods (.endpoint .FormsPost) ["GET"])
  let mux ← mux.HandleFunc "/encoding/utf8" (.methods (.endpoint .UTF8) ["GET"])

  let mux ← mux.HandleFunc "/delete" (.methods (.endpoint .RequestWithBody) ["DELETE"])
  let mux ← mux.HandleFunc "/get" (.methods (.endpoint .Get) ["GET"])
  let mux ← mux.HandleFunc "/head" (.methods (.endpoint .Get) ["HEAD"])
  let mux ← mux.HandleFunc "/patch" (.methods (.endpoint .RequestWithBody) ["PATCH"])
  let mux ← mux.HandleFunc "/post" (.methods (.endpoint .RequestWithBody) ["POST"])
  let mux ← mux.HandleFunc "/put" (.methods (.endpoint .RequestWithBody) ["PUT"])

  let mux ← mux.HandleFunc "/ip" (.endpoint .IP)
  let mux ← mux.HandleFunc "/user-agent" (.endpoint .UserAgent)
  let mux ← mux.HandleFunc "/headers" (.endpoint .Headers)
  let mux ← mux.HandleFunc "/response-headers" (.endpoint .ResponseHeaders)

  let mux ← mux.HandleFunc "/status/" (.endpoint .Status)
  let mux ← mux.HandleFunc "/unstable" (.endpoint .Unstable)

  let mux ← mux.HandleFunc "/redirect/" (.endpoint .Redirect)
  let mux ← mux.HandleFunc "/relative-redirect/" (.endpoint .RelativeRedirect)
  let mux ← mux.HandleFunc "/absolute-redirect/" (.endpoint .AbsoluteRedirect)
  let mux ← mux.HandleFunc "/redirect-to" (.endpoint .RedirectTo)

  let mux ← mux.HandleFunc "/cookies" (.endpoint .Cookies)
  let mux ← mux.HandleFunc "/cookies/set" (.endpoint .SetCookies)
  let mux ← mux.HandleFunc "/cookies/delete" (.endpoint .DeleteCookies)

  let mux ← mux.HandleFunc "/basic-auth/" (.endpoint .BasicAuth)
  let mux ← mux.HandleFunc "/hidden-basic-auth/" (.endpoint .HiddenBasicAuth)
  let mux ← mux.HandleFunc "/digest-auth/" (.endpoint .DigestAuth)
  let mux ← mux.HandleFunc "/bearer" (.endpoint .Bearer)

  let mux ← mux.HandleFunc "/deflate" (.endpoint .Deflate)
  let mux ← mux.HandleFunc "/gzip" (.endpoint .Gzip)

  let mux ← mux.HandleFunc "/stream/" (.endpoint .Stream)
  let mux ← mux.HandleFunc "/delay/" (.endpoint .Delay)
  let mux ← mux.HandleFunc "/drip" (.endpoint .Drip)

  let mux ← mux.HandleFunc "/range/" (.endpoint .Range)
  let mux ← mux.HandleFunc "/bytes/" (.endpoint .Bytes)
  let mux ← mux.HandleFunc "/stream-bytes/" (.endpoint .StreamBytes)

  let mux ← mux.HandleFunc "/html" (.endpoint .HTML)
  let mux ← mux.HandleFunc "/robots.txt" (.endpoint .Robots)
  let mux ← mux.HandleFunc "/deny" (.endpoint .Deny)

  let mux ← mux.HandleFunc "/cache" (.endpoint .Cache)
  let mux ← mux.HandleFunc "/cache/" (.endpoint .CacheControl)
  let mux ← mux.HandleFunc "/etag/" (.endpoint .ETag)

  let mux ← mux.HandleFunc "/links/" (.endpoint .Links)

  let mux ← mux.HandleFunc "/image" (.endpoint .ImageAccept)
  let mux ← mux.HandleFunc "/image/" (.endpoint .Image)
  let mux ← mux.HandleFunc "/xml" (.endpoint .XML)
  let mux ← mux.HandleFunc "/json" (.endpoint .JSON)

  let mux ← mux.HandleFunc "/uuid" (.endpoint .UUID)
  let mux ← mux.HandleFunc "/base64/" (.endpoint .Base64)

  -- existing httpbin endpoints that we do not support
  let mux ← mux.HandleFunc "/brotli" .notImplementedHandler

  -- the paths that ServeMux would redirect by adding a trailing slash
  let mux ← mux.HandleFunc "/absolute-redirect" .NotFound
  let mux ← mux.HandleFunc "/basic-auth" .NotFound
  let mux ← mux.HandleFunc "/delay" .NotFound
  let mux ← mux.HandleFunc "/digest-auth" .NotFound
  let mux ← mux.HandleFunc "/hidden-basic-auth" .NotFound
  let mux ← mux.HandleFunc "/redirect" .NotFound
  let mux ← mux.HandleFunc "/relative-redirect" .NotFound
  let mux ← mux.HandleFunc "/status" .NotFound
  let mux ← mux.HandleFunc "/stream" .NotFound
  let mux ← mux.HandleFunc "/bytes" .NotFound
  let mux ← mux.HandleFunc "/stream-bytes" .NotFound
  let mux ← mux.HandleFunc "/links" .NotFound

  -- Apply global middleware
  let handler : httpbin.Handler Observer := .mux mux
  let handler := httpbin.Handler.limitRequestSize h.MaxBodySize handler
  let handler := httpbin.Handler.preflight handler
  let handler := httpbin.Handler.autohead handler
  let handler :=
    match h.Observer with
    | some o => httpbin.Handler.observe o handler
    | none => handler
  pure handler

/-- The route table that `Handler` builds; it does not depend on the `HTTPBin` value. -/
def routeTable : ServeMux :=
  match (New ([] : List (OptionFunc Unit))).Handler with
  | .ok handler => handler.routes
  | .error _ => NewServeMux

/-- The allowed methods a handler declares, when it is wrapped in the `methods` gate. -/
def HandlerFunc.allowedMethods : HandlerFunc → Option (List String)
  | .methods _ allowed => some allowed
  | _ => none

/-- The endpoint of a handler that is a method value registered without a gate. -/
def HandlerFunc.bareEndpoint : HandlerFunc → Option Endpoint
  | .endpoint e => some e
  | _ => none

/-- The patterns a route table maps through the `methods` gate, each with the allowed
methods it declares, in registration order. -/
def ServeMux.gatedRoutes (mux : ServeMux) : List (String × List String) :=
  mux.m.entries.filterMap fun e => e.2.h.allowedMethods.map fun allowed => (e.1, allowed)

/-- The patterns a route table maps to an endpoint without a gate, in registration order. -/
def ServeMux.ungatedRoutes (mux : ServeMux) : List (String × Endpoint) :=
  mux.m.entries.filterMap fun e => e.2.h.bareEndpoint.map fun ep => (e.1, ep)

/-- An `HTTPBin` with an observer configured. -/
def observedHTTPBin : HTTPBin Unit := New [WithObserver (some ())]

/-! ## Auxiliary definitions for the later statements -/

/-- The compat serializer in the words of the specification: every key of the multimap is
kept, and is mapped to the single value when it has exactly one value and to the ordered
list of its values otherwise. -/
def CompatSerializer (M : GoMap (GoSlice String)) : GoMap GoAny :=
  .mk (M.entries.map fun e =>
    (e.1, match e.2.toList with
      | [v] => GoAny.string v
      | _ => GoAny.strings e.2))

/-- The compat map that the loops of the `MarshalJSON` methods build from a multimap. -/
def compatMap (M : GoMap (GoSlice String)) : GoMap GoAny :=
  .mk (compatEntries M.entries [])

/-- The options of `httpbin.go`, as data. -/
inductive Opt (Observer : Type) where
  | defaultParams (p : DefaultParams)
  | maxBodySize (m : Int)
  | maxDuration (d : Int)
  | observer (o : Option Observer)

/-- The `OptionFunc` an option stands for. -/
def Opt.toFunc {Observer : Type} : Opt Observer → OptionFunc Observer
  | .defaultParams p => WithDefaultParams p
  | .maxBodySize m => WithMaxBodySize m
  | .maxDuration d => WithMaxDuration d
  | .observer o => WithObserver o

/-- The value `f` yields on the last element of the list on which it yields one. -/
def lastSome {α β : Type} (f : α → Option β) : List α → Option β
  | [] => none
  | a :: rest =>
    match lastSome f rest with
    | some b => some b
    | none => f a

/-- The argument of an option when it is `WithMaxBodySize`. -/
def Opt.maxBodySize? {Observer : Type} : Opt Observer → Option Int
  | .maxBodySize m => some m
  | _ => none

/-- The argument of an option when it is `WithMaxDuration`. -/
def Opt.maxDuration? {Observer : Type} : Opt Observer → Option Int
  | .maxDuration d => some d
  | _ => none

/-- The argument of an option when it is `WithObserver`. -/
def Opt.observer? {Observer : Type} : Opt Observer → Option (Option Observer)
  | .observer o => some o
  | _ => none

/-- The argument of an option when it is `WithDefaultParams`. -/
def Opt.defaultParams? {Observer : Type} : Opt Observer → Option DefaultParams
  | .defaultParams p => some p
  | _ => none

/-- The patterns that `Handler` registers, in the order of its `HandleFunc` calls. -/
def registeredPatterns : List String :=
  ["/", "/forms/post", "/encoding/utf8", "/delete", "/get", "/head", "/patch", "/post",
   "/put", "/ip", "/user-agent", "/headers", "/response-headers", "/status/", "/unstable",
   "/redirect/", "/relative-redirect/", "/absolute-redirect/", "/redirect-to", "/cookies",
   "/cookies/set", "/cookies/delete", "/basic-auth/", "/hidden-basic-auth/", "/digest-auth/",
   "/bearer", "/deflate", "/gzip", "/stream/", "/delay/", "/drip", "/range/", "/bytes/",
   "/stream-bytes/", "/html", "/robots.txt", "/deny", "/cache", "/cache/", "/etag/",
   "/links/", "/image", "/image/", "/xml", "/json", "/uuid", "/base64/", "/brotli",
   "/absolute-redirect", "/basic-auth", "/delay", "/digest-auth", "/hidden-basic-auth",
   "/redirect", "/relative-redirect", "/status", "/stream", "/bytes", "/stream-bytes",
   "/links"]

/-- The decoder of a compat value: a bare string is the list of that one value, a list is
itself. -/
def decodeValue : GoAny → GoSlice String
  | .string s => .mk [s]
  | .strings xs => xs
  | _ => .nil

/-- The decoder of the entries of a compat map. -/
def decodeEntries (es : List (String × GoAny)) : List (String × GoSlice String) :=
  es.map fun e => (e.1, decodeValue e.2)

/-! ## Requests through the middleware -/

/-- An inbound request, as far as the middleware and the route table look at it. -/
structure Request where
  Method : String
  Path : String
  /-- The declared `Content-Length`, when the client declared one. -/
  ContentLength : Option Nat
  /-- The number of bytes the body holds. -/
  BodySize : Nat
  /-- Whether the request bears the standard preflight request headers. -/
  PreflightHeaders : Bool
  /-- The number of bytes the body reader lets through, once a stage has wrapped it. -/
  BodyLimit : Option Int
deriving DecidableEq

/-- What is sent back for a request. -/
inductive Reply where
  /-- The payload-too-large condition, status 413. -/
  | payloadTooLarge
  /-- The empty success that answers a preflight. -/
  | preflightSuccess
  /-- The answer of the route table. -/
  | routed (o : Outcome)
deriving DecidableEq

/-- The status code of a reply, where it does not depend on the endpoint. -/
def Reply.status : Reply → Option Nat
  | .payloadTooLarge => some 413
  | .preflightSuccess => some 200
  | .routed (.endpoint _) => none
  | .routed (.methodNotAllowed _) => some 405
  | .routed .notFound => some 404
  | .routed .notImplemented => some 501
  | .routed (.movedPermanently _) => some 301

/-- The record an observer receives for a handled request: its method, its path and the
status sent, given by the reply. -/
structure Observation where
  Method : String
  Path : String
  Reply : Reply
deriving DecidableEq

/-- The handling of one request: the reply sent, whether it carries the CORS-permissive
headers, whether its body was discarded, and the observer calls made, in order. -/
structure Exchange (Observer : Type) where
  reply : Reply
  cors : Bool
  bodyDiscarded : Bool
  observed : List (Observer × Observation)

/-- Whether the request is a CORS preflight: an `OPTIONS` request bearing the standard
preflight request headers. -/
def Request.isPreflight (r : Request) : Bool :=
  r.Method == "OPTIONS" && r.PreflightHeaders

/-- Whether the body holds more bytes than the wrapped reader lets through. -/
def Request.bodyExceedsLimit (r : Request) : Bool :=
  match r.BodyLimit with
  | some max => decide ((r.BodySize : Int) > max)
  | none => false

/-- Modelled from the spec: the endpoints are declared outside `httpbin.go`. A request the
route table hands to an endpoint that reads the body is failed with payload-too-large when
the read goes beyond the limit of the wrapped body; `readsBody` tells which endpoints read
the body. Every other request gets the answer of the route table. -/
def ServeMux.serveRequest (readsBody : Endpoint → Bool) (mux : ServeMux) (r : Request) :
    Reply :=
  match mux.ServeHTTP r.Method r.Path with
  | .endpoint e =>
    if readsBody e && r.bodyExceedsLimit then .payloadTooLarge else .routed (.endpoint e)
  | o => .routed o

/-- Modelled from the spec: `limitRequestSize` is declared outside `httpbin.go`. It rejects
upfront when a declared `Content-Length` already exceeds `max`, and otherwise wraps the
request body so that any attempt to read beyond `max` bytes fails the request with
payload-too-large, whether or not the client declared a `Content-Length`. -/
def limitRequestSize {Observer : Type} (max : Int) (next : Request → Exchange Observer)
    (r : Request) : Exchange Observer :=
  match r.ContentLength with
  | some n =>
    if (n : Int) > max then
      { reply := .payloadTooLarge, cors := false, bodyDiscarded := false, observed := [] }
    else next { r with BodyLimit := some max }
  | none => next { r with BodyLimit := some max }

/-- Modelled from the spec: `preflight` is declared outside `httpbin.go`. For a CORS preflight
it short-circuits without invoking `next`, responding with an empty success and
CORS-permissive headers; for every other request it invokes `next` and then adds the
CORS-permissive headers to the response, whatever its status. -/
def preflight {Observer : Type} (next : Request → Exchange Observer) (r : Request) :
    Exchange Observer :=
  if r.isPreflight then
    { reply := .preflightSuccess, cors := true, bodyDiscarded := false, observed := [] }
  else { next r with cors := true }

/-- Modelled from the spec: `autohead` is declared outside `httpbin.go`. For a route
registered under `GET` it also accepts `HEAD` on the same path by invoking the `GET` handler
internally and emitting its status and headers with the body discarded; a route is taken as
not registered under `GET` when the `GET` request is answered method-not-allowed, and the
`HEAD` request is then passed on as it is. -/
def autohead {Observer : Type} (next : Request → Exchange Observer) (r : Request) :
    Exchange Observer :=
  if r.Method = "HEAD" then
    match (next { r with Method := "GET" }).reply with
    | .routed (.methodNotAllowed _) => next r
    | _ => { next { r with Method := "GET" } with bodyDiscarded := true }
  else next r

/-- Modelled from the spec: `observe` is declared outside `httpbin.go`. It invokes `next`,
capturing the method, the path and the final status, then invokes the observer exactly once
with this record, also when `next` failed the request. -/
def observe {Observer : Type} (o : Observer) (next : Request → Exchange Observer)
    (r : Request) : Exchange Observer :=
  { next r with
    observed := (next r).observed ++
      [(o, { Method := r.Method, Path := r.Path, Reply := (next r).reply })] }

/-- The handling of a request by a handler that `HTTPBin.Handler` builds: each middleware
stage is handed the handling of the stage it wraps. -/
def Handler.ServeHTTP {Observer : Type} (readsBody : Endpoint → Bool) :
    Handler Observer → Request → Exchange Observer
  | .mux routes => fun r =>
    { reply := routes.serveRequest readsBody r, cors := false, bodyDiscarded := false,
      observed := [] }
  | .limitRequestSize max next => httpbin.limitRequestSize max (next.ServeHTTP readsBody)
  | .preflight next => httpbin.preflight (next.ServeHTTP readsBody)
  | .autohead next => httpbin.autohead (next.ServeHTTP readsBody)
  | .observe o next => httpbin.observe o (next.ServeHTTP readsBody)

/-- A preflight request to `/post` that declares a body one byte over the default limit. -/
def oversizePreflight : Request :=
  { Method := "OPTIONS", Path := "/post", ContentLength := some 1048577,
    BodySize := 1048577, PreflightHeaders := true, BodyLimit := none }

/-- A `POST` request to `/post` that declares a body one byte over the default limit. -/
def oversizePost : Request :=
  { Method := "POST", Path := "/post", ContentLength := some 1048577, BodySize := 1048577,
    PreflightHeaders := false, BodyLimit := none }

/-- A `POST` request to `/post` with a body of exactly the default limit. -/
def fullPost : Request :=
  { Method := "POST", Path := "/post", ContentLength := some 1048576, BodySize := 1048576,
    PreflightHeaders := false, BodyLimit := none }

/-- A `POST` request to `/post` with no declared length and a body one byte over the default
limit. -/
def streamedOversizePost : Request :=
  { Method := "POST", Path := "/post", ContentLength := none, BodySize := 1048577,
    PreflightHeaders := false, BodyLimit := none }

/-- The endpoints that read the request body, for the examples: `RequestWithBody`. -/
def bodyEchoReads : Endpoint → Bool
  | .RequestWithBody => true
  | _ => false

/-! ## Lemmas on maps and on the encoder -/

theorem find_assign {V : Type} (l : List (String × V)) (k k' : String) (v : V) :
    find (assign l k v) k' = if k = k' then some v else find l k' := by
  induction l with
  | nil => simp [assign, find]
  | cons e t ih =>
    obtain ⟨a, b⟩ := e
    by_cases h : a = k
    · subst h
      by_cases h' : a = k' <;> simp [assign, find, h']
    · by_cases h' : a = k'
      · subst h'
        have : ¬ k = a := fun hne => h hne.symm
        simp [assign, find, h, this]
      · simp [assign, find, h, h', ih]

theorem keys_assign {V : Type} (l : List (String × V)) (k : String) (v : V) :
    (assign l k v).map Prod.fst = if k ∈ l.map Prod.fst then l.map Prod.fst
      else l.map Prod.fst ++ [k] := by
  induction l with
  | nil => simp [assign]
  | cons e t ih =>
    obtain ⟨a, b⟩ := e
    by_cases h : a = k
    · subst h; simp [assign]
    · have h' : ¬ k = a := fun hne => h hne.symm
      by_cases hk : k ∈ t.map Prod.fst
      · simp only [assign, h, if_false, List.map_cons, ih, hk, if_true, List.mem_cons, or_true]
      · simp only [assign, h, if_false, List.map_cons, ih, hk, List.mem_cons, h', or_self,
          List.cons_append]

theorem nodup_keys_assign {V : Type} (l : List (String × V)) (k : String) (v : V)
    (h : (l.map Prod.fst).Nodup) : ((assign l k v).map Prod.fst).Nodup := by
  rw [keys_assign]
  split
  · exact h
  · rename_i hk
    exact List.Nodup.append h (List.nodup_singleton k) (by simpa using hk)

theorem mem_keys_assign {V : Type} (l : List (String × V)) (k k' : String) (v : V) :
    k' ∈ (assign l k v).map Prod.fst ↔ k' = k ∨ k' ∈ l.map Prod.fst := by
  rw [keys_assign]
  split
  · rename_i hk
    constructor
    · exact Or.inr
    · rintro (h | h)
      · exact h ▸ hk
      · exact h
  · rw [List.mem_append, List.mem_singleton]; tauto

theorem find_isSome_iff {V : Type} (l : List (String × V)) (k : String) :
    (find l k).isSome ↔ k ∈ l.map Prod.fst := by
  induction l with
  | nil => simp [find]
  | cons e t ih =>
    obtain ⟨a, b⟩ := e
    by_cases h : a = k
    · simp [find, h]
    · have h' : ¬ k = a := fun hne => h hne.symm
      simp [find, h, h', ih]

theorem find_eq_some_iff {V : Type} (l : List (String × V)) (h : (l.map Prod.fst).Nodup)
    (k : String) (v : V) : find l k = some v ↔ (k, v) ∈ l := by
  induction l with
  | nil => simp [find]
  | cons e t ih =>
    obtain ⟨a, b⟩ := e
    rw [List.map_cons, List.nodup_cons] at h
    by_cases hk : a = k
    · subst hk
      have : ∀ v, (a, v) ∉ t := fun v hv => h.1 (List.mem_map.mpr ⟨(a, v), hv, rfl⟩)
      simp [find, this, eq_comm]
    · have h' : ¬ k = a := fun hne => hk hne.symm
      simp [find, hk, h', ih h.2]

theorem find_perm {V : Type} {l l' : List (String × V)} (hp : l.Perm l')
    (h : (l.map Prod.fst).Nodup) (k : String) : find l k = find l' k := by
  have h' : (l'.map Prod.fst).Nodup := (hp.map Prod.fst).nodup_iff.mp h
  ext v
  simp only [Option.mem_def]
  rw [find_eq_some_iff l h, find_eq_some_iff l' h', hp.mem_iff]

theorem find_sortKeys {V : Type} (l : List (String × V)) (h : (l.map Prod.fst).Nodup)
    (k : String) : find (sortKeys l) k = find l k :=
  (find_perm (List.perm_insertionSort _ l).symm h k).symm

theorem keys_sortKeys_perm {V : Type} (l : List (String × V)) :
    ((sortKeys l).map Prod.fst).Perm (l.map Prod.fst) :=
  (List.perm_insertionSort _ l).map Prod.fst

theorem find_map {V W : Type} (g : V → W) (l : List (String × V)) (k : String) :
    find (l.map fun e => (e.1, g e.2)) k = (find l k).map g := by
  induction l with
  | nil => simp [find]
  | cons e t ih =>
    obtain ⟨a, b⟩ := e
    by_cases h : a = k <;> simp [find, h, ih]

theorem nodup_keys_compatEntries (l : List (String × GoSlice String))
    (acc : List (String × GoAny)) (h : (acc.map Prod.fst).Nodup) :
    ((compatEntries l acc).map Prod.fst).Nodup := by
  induction l generalizing acc with
  | nil => exact h
  | cons e t ih => exact ih _ (nodup_keys_assign acc e.1 _ h)

theorem find_compatEntries (l : List (String × GoSlice String)) (acc : List (String × GoAny))
    (h : (l.map Prod.fst).Nodup) (k : String) :
    find (compatEntries l acc) k =
      match find l k with
      | some vs => some (compatValue vs)
      | none => find acc k := by
  induction l generalizing acc with
  | nil => simp [compatEntries, find]
  | cons e t ih =>
    obtain ⟨a, vs⟩ := e
    rw [List.map_cons, List.nodup_cons] at h
    show find (compatEntries t (assign acc a (compatValue vs))) k = _
    rw [ih _ h.2, find_assign]
    by_cases hk : a = k
    · subst hk
      have hnone : find t a = none := by
        cases hf : find t a with
        | none => rfl
        | some w =>
          have := (find_isSome_iff t a).mp (by simp [hf])
          exact absurd this h.1
      simp [find, hnone]
    · simp [find, hk]

theorem mem_keys_compatEntries (l : List (String × GoSlice String))
    (acc : List (String × GoAny)) (k : String) :
    k ∈ (compatEntries l acc).map Prod.fst ↔ k ∈ l.map Prod.fst ∨ k ∈ acc.map Prod.fst := by
  induction l generalizing acc with
  | nil => simp [compatEntries]
  | cons e t ih =>
    show k ∈ (compatEntries t (assign acc e.1 (compatValue e.2))).map Prod.fst ↔ _
    rw [ih, mem_keys_assign, List.map_cons, List.mem_cons]
    tauto

theorem jsonMarshalAny_compatValue (vs : GoSlice String) :
    ∃ j, jsonMarshalAny (compatValue vs) = .ok j := by
  rcases vs with _ | xs
  · exact ⟨_, rfl⟩
  · rcases xs with _ | ⟨x, _ | ⟨y, ys⟩⟩
    · exact ⟨_, rfl⟩
    · exact ⟨_, rfl⟩
    · exact ⟨_, rfl⟩

theorem encodable_assign (l : List (String × GoAny)) (k : String) (v : GoAny)
    (hl : ∀ e ∈ l, ∃ j, jsonMarshalAny e.2 = .ok j) (hv : ∃ j, jsonMarshalAny v = .ok j) :
    ∀ e ∈ assign l k v, ∃ j, jsonMarshalAny e.2 = .ok j := by
  induction l with
  | nil => intro e he; simp [assign] at he; subst he; exact hv
  | cons a t ih =>
    obtain ⟨a1, a2⟩ := a
    intro e he
    by_cases h : a1 = k
    · simp only [assign, h, if_true, List.mem_cons] at he
      rcases he with he | he
      · subst he; exact hv
      · exact hl e (List.mem_cons_of_mem _ he)
    · simp only [assign, h, if_false, List.mem_cons] at he
      rcases he with he | he
      · subst he; exact hl _ (List.mem_cons_self _ _)
      · exact ih (fun e he => hl e (List.mem_cons_of_mem _ he)) e he

theorem encodable_compatEntries (l : List (String × GoSlice String))
    (acc : List (String × GoAny)) (h : ∀ e ∈ acc, ∃ j, jsonMarshalAny e.2 = .ok j) :
    ∀ e ∈ compatEntries l acc, ∃ j, jsonMarshalAny e.2 = .ok j := by
  induction l generalizing acc with
  | nil => exact h
  | cons e t ih => exact ih _ (encodable_assign acc e.1 _ h (jsonMarshalAny_compatValue e.2))

theorem jsonMarshalFields_ok (l : List (String × GoAny))
    (h : ∀ e ∈ l, ∃ j, jsonMarshalAny e.2 = .ok j) :
    jsonMarshalFields l = .ok (l.map fun e => (e.1, jsonOf e.2)) := by
  induction l with
  | nil => simp [jsonMarshalFields]
  | cons e t ih =>
    obtain ⟨k, v⟩ := e
    obtain ⟨j, hj⟩ := h (k, v) (List.mem_cons_self _ _)
    have hj' : jsonMarshalAny v = .ok j := hj
    simp [jsonMarshalFields, hj', ih (fun e he => h e (List.mem_cons_of_mem _ he)), jsonOf,
      bind, Except.bind, pure, Except.pure]

theorem jsonMarshalMap_compat (M : GoMap (GoSlice String)) :
    jsonMarshalMap (.mk (compatEntries M.entries [])) = .ok (compatObject M) := by
  simp [jsonMarshalMap, compatObject,
    jsonMarshalFields_ok _ (encodable_compatEntries M.entries [] (by simp)), Except.map]

theorem compat_body {σ : Type} (get : σ → GoMap GoAny) (set : σ → GoMap GoAny → σ)
    (s : σ) (k : String) (vs : GoSlice String) (es : List (String × GoAny))
    (hs : get s = .mk es) :
    (if vs.len ≠ 1 then do
        pure (set s (← (get s).store k (.strings vs)))
      else do
        pure (set s (← (get s).store k (.string (← vs.index 0)))) : Except GoError σ)
      = .ok (set s (.mk (assign es k (compatValue vs)))) := by
  rw [hs]
  rcases vs with _ | xs
  · simp [GoSlice.len, GoSlice.toList, GoMap.store, compatValue, bind, Except.bind, pure,
      Except.pure]
  · rcases xs with _ | ⟨x, _ | ⟨y, ys⟩⟩ <;>
      simp [GoSlice.len, GoSlice.toList, GoSlice.index, GoMap.store, compatValue, bind,
        Except.bind, pure, Except.pure]

theorem foldlM_compat {σ : Type} (get : σ → GoMap GoAny) (set : σ → GoMap GoAny → σ)
    (hsg : ∀ s, set s (get s) = s) (hgs : ∀ s m, get (set s m) = m)
    (hss : ∀ s m m', set (set s m) m' = set s m')
    (body : σ → String → GoSlice String → Except GoError σ)
    (hbody : ∀ s k vs es, get s = .mk es →
      body s k vs = .ok (set s (.mk (assign es k (compatValue vs)))))
    (l : List (String × GoSlice String)) (s : σ) (es : List (String × GoAny))
    (hs : get s = .mk es) :
    l.foldlM (fun s e => body s e.1 e.2) s = .ok (set s (.mk (compatEntries l es))) := by
  induction l generalizing s es with
  | nil => simp [compatEntries, ← hs, hsg, pure, Except.pure]
  | cons e t ih =>
    rw [List.foldlM_cons, hbody s e.1 e.2 es hs]
    show List.foldlM _ _ t = _
    rw [ih _ _ (hgs _ _), hss]
    rfl

/-! ## What each `MarshalJSON` method computes -/

theorem headersResponse_compat_eq (hr : headersResponse) :
    hr.compat = .ok { Headers := .mk (compatEntries hr.Headers.entries []) } := by
  unfold headersResponse.compat GoMap.rangeM
  have h1 := fun s es hs => foldlM_compat (fun c : headersResponseCompat => c.Headers)
    (fun c m => { c with Headers := m }) (fun _ => rfl) (fun _ _ => rfl) (fun _ _ _ => rfl) _
    (fun s k vs es hs => compat_body (fun c : headersResponseCompat => c.Headers)
      (fun c m => { c with Headers := m }) s k vs es hs) hr.Headers.entries s es hs
  simp only [] at h1
  simp only [bind, Except.bind, pure, Except.pure] at h1 ⊢
  rw [h1 { Headers := GoMap.make } [] rfl]

theorem getResponse_compat_eq (gr : getResponse) :
    gr.compat = .ok { Args := .mk (compatEntries gr.Args.entries []),
                      Headers := .mk (compatEntries gr.Headers.entries []),
                      Origin := gr.Origin, URL := gr.URL } := by
  unfold getResponse.compat GoMap.rangeM
  have h1 := fun s es hs => foldlM_compat (fun c : getResponseCompat => c.Args)
    (fun c m => { c with Args := m }) (fun _ => rfl) (fun _ _ => rfl) (fun _ _ _ => rfl) _
    (fun s k vs es hs => compat_body (fun c : getResponseCompat => c.Args)
      (fun c m => { c with Args := m }) s k vs es hs) gr.Args.entries s es hs
  have h2 := fun s es hs => foldlM_compat (fun c : getResponseCompat => c.Headers)
    (fun c m => { c with Headers := m }) (fun _ => rfl) (fun _ _ => rfl) (fun _ _ _ => rfl) _
    (fun s k vs es hs => compat_body (fun c : getResponseCompat => c.Headers)
      (fun c m => { c with Headers := m }) s k vs es hs) gr.Headers.entries s es hs
  simp only [] at h1 h2
  simp only [bind, Except.bind, pure, Except.pure] at h1 h2 ⊢
  rw [h1 _ [] rfl]
  simp only []
  rw [h2 _ [] rfl]

theorem bodyResponse_compat_eq (br : bodyResponse) :
    br.compat = .ok { Args := .mk (compatEntries br.Args.entries []),
                      Headers := .mk (compatEntries br.Headers.entries []),
                      Origin := br.Origin, URL := br.URL, Data := br.Data,
                      Files := .mk (compatEntries br.Files.entries []),
                      Form := .mk (compatEntries br.Form.entries []),
                      JSON := br.JSON } := by
  unfold bodyResponse.compat GoMap.rangeM
  have h1 := fun s es hs => foldlM_compat (fun c : bodyResponseCompat => c.Args)
    (fun c m => { c with Args := m }) (fun _ => rfl) (fun _ _ => rfl) (fun _ _ _ => rfl) _
    (fun s k vs es hs => compat_body (fun c : bodyResponseCompat => c.Args)
      (fun c m => { c with Args := m }) s k vs es hs) br.Args.entries s es hs
  have h2 := fun s es hs => foldlM_compat (fun c : bodyResponseCompat => c.Headers)
    (fun c m => { c with Headers := m }) (fun _ => rfl) (fun _ _ => rfl) (fun _ _ _ => rfl) _
    (fun s k vs es hs => compat_body (fun c : bodyResponseCompat => c.Headers)
      (fun c m => { c with Headers := m }) s k vs es hs) br.Headers.entries s es hs
  have h3 := fun s es hs => foldlM_compat (fun c : bodyResponseCompat => c.Files)
    (fun c m => { c with Files := m }) (fun _ => rfl) (fun _ _ => rfl) (fun _ _ _ => rfl) _
    (fun s k vs es hs => compat_body (fun c : bodyResponseCompat => c.Files)
      (fun c m => { c with Files := m }) s k vs es hs) br.Files.entries s es hs
  have h4 := fun s es hs => foldlM_compat (fun c : bodyResponseCompat => c.Form)
    (fun c m => { c with Form := m }) (fun _ => rfl) (fun _ _ => rfl) (fun _ _ _ => rfl) _
    (fun s k vs es hs => compat_body (fun c : bodyResponseCompat => c.Form)
      (fun c m => { c with Form := m }) s k vs es hs) br.Form.entries s es hs
  simp only [] at h1 h2 h3 h4
  simp only [bind, Except.bind, pure, Except.pure] at h1 h2 h3 h4 ⊢
  rw [h1 _ [] rfl]
  simp only []
  rw [h2 _ [] rfl]
  simp only []
  rw [h3 _ [] rfl]
  simp only []
  rw [h4 _ [] rfl]

theorem gzipResponse_compat_eq (gr : gzipResponse) :
    gr.compat = .ok { Headers := .mk (compatEntries gr.Headers.entries []),
                      Origin := gr.Origin, Gzipped := gr.Gzipped } := by
  unfold gzipResponse.compat GoMap.rangeM
  have h1 := fun s es hs => foldlM_compat (fun c : gzipResponseCompat => c.Headers)
    (fun c m => { c with Headers := m }) (fun _ => rfl) (fun _ _ => rfl) (fun _ _ _ => rfl) _
    (fun s k vs es hs => compat_body (fun c : gzipResponseCompat => c.Headers)
      (fun c m => { c with Headers := m }) s k vs es hs) gr.Headers.entries s es hs
  simp only [] at h1
  simp only [bind, Except.bind, pure, Except.pure] at h1 ⊢
  rw [h1 _ [] rfl]

theorem deflateResponse_compat_eq (dr : deflateResponse) :
    dr.compat = .ok { Headers := .mk (compatEntries dr.Headers.entries []),
                      Origin := dr.Origin, Deflated := dr.Deflated } := by
  unfold deflateResponse.compat GoMap.rangeM
  have h1 := fun s es hs => foldlM_compat (fun c : deflateResponseCompat => c.Headers)
    (fun c m => { c with Headers := m }) (fun _ => rfl) (fun _ _ => rfl) (fun _ _ _ => rfl) _
    (fun s k vs es hs => compat_body (fun c : deflateResponseCompat => c.Headers)
      (fun c m => { c with Headers := m }) s k vs es hs) dr.Headers.entries s es hs
  simp only [] at h1
  simp only [bind, Except.bind, pure, Except.pure] at h1 ⊢
  rw [h1 _ [] rfl]

theorem streamResponse_compat_eq (sr : streamResponse) :
    sr.compat = .ok { ID := sr.ID, Args := .mk (compatEntries sr.Args.entries []),
                      Headers := .mk (compatEntries sr.Headers.entries []),
                      Origin := sr.Origin, URL := sr.URL } := by
  unfold streamResponse.compat GoMap.rangeM
  have h1 := fun s es hs => foldlM_compat (fun c : streamResponseCompat => c.Args)
    (fun c m => { c with Args := m }) (fun _ => rfl) (fun _ _ => rfl) (fun _ _ _ => rfl) _
    (fun s k vs es hs => compat_body (fun c : streamResponseCompat => c.Args)
      (fun c m => { c with Args := m }) s k vs es hs) sr.Args.entries s es hs
  have h2 := fun s es hs => foldlM_compat (fun c : streamResponseCompat => c.Headers)
    (fun c m => { c with Headers := m }) (fun _ => rfl) (fun _ _ => rfl) (fun _ _ _ => rfl) _
    (fun s k vs es hs => compat_body (fun c : streamResponseCompat => c.Headers)
      (fun c m => { c with Headers := m }) s k vs es hs) sr.Headers.entries s es hs
  simp only [] at h1 h2
  simp only [bind, Except.bind, pure, Except.pure] at h1 h2 ⊢
  rw [h1 _ [] rfl]
  simp only []
  rw [h2 _ [] rfl]

theorem headersResponse_MarshalJSON_eq (hr : headersResponse) :
    hr.MarshalJSON = .ok (.obj [("headers", compatObject hr.Headers)]) := by
  simp [headersResponse.MarshalJSON, headersResponse_compat_eq,
    headersResponseCompat.jsonMarshal, jsonMarshalMap_compat, bind, Except.bind, pure,
    Except.pure]

theorem getResponse_MarshalJSON_eq (gr : getResponse) :
    gr.MarshalJSON = .ok (.obj [("args", compatObject gr.Args),
      ("headers", compatObject gr.Headers), ("origin", .str gr.Origin),
      ("url", .str gr.URL)]) := by
  simp [getResponse.MarshalJSON, getResponse_compat_eq, getResponseCompat.jsonMarshal,
    jsonMarshalMap_compat, bind, Except.bind, pure, Except.pure]

theorem bodyResponse_MarshalJSON_eq (br : bodyResponse) :
    br.MarshalJSON = (jsonMarshalAny br.JSON).map fun json =>
      .obj [("args", compatObject br.Args), ("headers", compatObject br.Headers),
        ("origin", .str br.Origin), ("url", .str br.URL), ("data", .str br.Data),
        ("files", compatObject br.Files), ("form", compatObject br.Form), ("json", json)] := by
  cases h : jsonMarshalAny br.JSON <;>
    simp [bodyResponse.MarshalJSON, bodyResponse_compat_eq, bodyResponseCompat.jsonMarshal,
      jsonMarshalMap_compat, bind, Except.bind, pure, Except.pure, Except.map, h]

theorem gzipResponse_MarshalJSON_eq (gr : gzipResponse) :
    gr.MarshalJSON = .ok (.obj [("headers", compatObject gr.Headers),
      ("origin", .str gr.Origin), ("gzipped", .bool gr.Gzipped)]) := by
  simp [gzipResponse.MarshalJSON, gzipResponse_compat_eq, gzipResponseCompat.jsonMarshal,
    jsonMarshalMap_compat, bind, Except.bind, pure, Except.pure]

theorem deflateResponse_MarshalJSON_eq (dr : deflateResponse) :
    dr.MarshalJSON = .ok (.obj [("headers", compatObject dr.Headers),
      ("origin", .str dr.Origin), ("deflated", .bool dr.Deflated)]) := by
  simp [deflateResponse.MarshalJSON, deflateResponse_compat_eq,
    deflateResponseCompat.jsonMarshal, jsonMarshalMap_compat, bind, Except.bind, pure,
    Except.pure]

theorem streamResponse_MarshalJSON_eq (sr : streamResponse) :
    sr.MarshalJSON = .ok (.obj [("id", .num sr.ID 0), ("args", compatObject sr.Args),
      ("headers", compatObject sr.Headers), ("origin", .str sr.Origin),
      ("url", .str sr.URL)]) := by
  simp [streamResponse.MarshalJSON, streamResponse_compat_eq, streamResponseCompat.jsonMarshal,
    jsonMarshalMap_compat, bind, Except.bind, pure, Except.pure]

theorem lookup_compat (M : GoMap (GoSlice String)) (h : M.WF) (k : String) :
    (GoMap.mk (compatEntries M.entries [])).lookup k = (M.lookup k).map compatValue := by
  unfold GoMap.lookup
  rw [show (GoMap.mk (compatEntries M.entries [])).entries = compatEntries M.entries [] from rfl,
    find_compatEntries _ _ h]
  cases find M.entries k <;> simp [find]

theorem field_compatObject (M : GoMap (GoSlice String)) (h : M.WF) (k : String) :
    (compatObject M).field k = (M.lookup k).map fun vs => jsonOf (compatValue vs) := by
  unfold compatObject Json.field
  simp only []
  have hn : (((compatEntries M.entries []).map fun e => (e.1, jsonOf e.2)).map Prod.fst).Nodup := by
    rw [List.map_map]
    exact nodup_keys_compatEntries _ _ List.nodup_nil
  rw [find_sortKeys _ hn, find_map]
  have := lookup_compat M h k
  unfold GoMap.lookup at this
  rw [show (GoMap.mk (compatEntries M.entries [])).entries = compatEntries M.entries [] from rfl]
    at this
  rw [this]
  unfold GoMap.lookup
  cases find M.entries k <;> simp

theorem compatObject_of_len_zero (M : GoMap (GoSlice String)) (h : M.entries = []) :
    compatObject M = .obj [] := by
  simp [compatObject, h, compatEntries, sortKeys]

theorem compatRule_compat (M : GoMap (GoSlice String)) (h : M.WF) :
    CompatRule M (.mk (compatEntries M.entries [])) := by
  intro k
  have hl := lookup_compat M h k
  have hk : k ∈ (GoMap.mk (compatEntries M.entries [])).keys ↔ k ∈ M.keys := by
    unfold GoMap.keys
    rw [show (GoMap.mk (compatEntries M.entries [])).entries = compatEntries M.entries [] from rfl,
      mem_keys_compatEntries]
    simp
  refine ⟨?_, ?_, ?_, hk⟩
  · rw [hl]
    constructor
    · rintro ⟨s, hs⟩
      cases hM : M.lookup k with
      | none => simp [hM] at hs
      | some vs =>
        refine ⟨vs, rfl, ?_⟩
        rw [hM] at hs
        rcases vs with _ | xs
        · simp [compatValue, GoSlice.toList] at hs
        · rcases xs with _ | ⟨x, _ | ⟨y, ys⟩⟩ <;>
            simp [compatValue, GoSlice.toList, GoSlice.len] at hs ⊢
    · rintro ⟨vs, hM, hlen⟩
      rw [hM]
      rcases vs with _ | xs
      · simp [GoSlice.len, GoSlice.toList] at hlen
      · rcases xs with _ | ⟨x, _ | ⟨y, ys⟩⟩ <;>
          simp [compatValue, GoSlice.toList, GoSlice.len] at hlen ⊢
  · intro s hs
    rw [hl] at hs
    cases hM : M.lookup k with
    | none => simp [hM] at hs
    | some vs =>
      refine ⟨vs, rfl, ?_⟩
      rw [hM] at hs
      rcases vs with _ | xs
      · simp [compatValue, GoSlice.toList] at hs
      · rcases xs with _ | ⟨x, _ | ⟨y, ys⟩⟩ <;>
          simp [compatValue, GoSlice.toList, GoSlice.index] at hs ⊢
        exact hs
  · intro vs hM hlen
    rw [hl, hM]
    rcases vs with _ | xs
    · simp [compatValue, GoSlice.toList]
    · rcases xs with _ | ⟨x, _ | ⟨y, ys⟩⟩ <;>
        simp [compatValue, GoSlice.toList, GoSlice.len] at hlen ⊢

/-! ## Compat serialisation -/

/-- C1: in each of the six `MarshalJSON` methods, the compat map built for a multimap field
obeys the compat rule at every key: a bare string exactly where the multimap has one value
(and it is that value), the list itself where it has any other number of values, and the same
keys as the multimap. -/
theorem compat_rule_all_methods (hr : headersResponse) (gr : getResponse) (br : bodyResponse)
    (zr : gzipResponse) (dr : deflateResponse) (sr : streamResponse)
    (hhr : hr.Headers.WF) (hgr : gr.Args.WF ∧ gr.Headers.WF)
    (hbr : br.Args.WF ∧ br.Headers.WF ∧ br.Files.WF ∧ br.Form.WF)
    (hzr : zr.Headers.WF) (hdr : dr.Headers.WF) (hsr : sr.Args.WF ∧ sr.Headers.WF) :
    (∃ c, hr.compat = .ok c ∧ CompatRule hr.Headers c.Headers) ∧
    (∃ c, gr.compat = .ok c ∧ CompatRule gr.Args c.Args ∧ CompatRule gr.Headers c.Headers) ∧
    (∃ c, br.compat = .ok c ∧ CompatRule br.Args c.Args ∧ CompatRule br.Headers c.Headers ∧
      CompatRule br.Files c.Files ∧ CompatRule br.Form c.Form) ∧
    (∃ c, zr.compat = .ok c ∧ CompatRule zr.Headers c.Headers) ∧
    (∃ c, dr.compat = .ok c ∧ CompatRule dr.Headers c.Headers) ∧
    (∃ c, sr.compat = .ok c ∧ CompatRule sr.Args c.Args ∧ CompatRule sr.Headers c.Headers) :=
  ⟨⟨_, headersResponse_compat_eq hr, compatRule_compat _ hhr⟩,
   ⟨_, getResponse_compat_eq gr, compatRule_compat _ hgr.1, compatRule_compat _ hgr.2⟩,
   ⟨_, bodyResponse_compat_eq br, compatRule_compat _ hbr.1, compatRule_compat _ hbr.2.1,
     compatRule_compat _ hbr.2.2.1, compatRule_compat _ hbr.2.2.2⟩,
   ⟨_, gzipResponse_compat_eq zr, compatRule_compat _ hzr⟩,
   ⟨_, deflateResponse_compat_eq dr, compatRule_compat _ hdr⟩,
   ⟨_, streamResponse_compat_eq sr, compatRule_compat _ hsr.1, compatRule_compat _ hsr.2⟩⟩

/-- The compat rule holds on the sample responses, whose maps have distinct keys. -/
theorem compat_rule_all_methods_witness :
    (sampleHeadersResponse.Headers.WF ∧ (sampleGetResponse.Args.WF ∧
      sampleGetResponse.Headers.WF) ∧ (sampleBodyResponse.Args.WF ∧
      sampleBodyResponse.Headers.WF ∧ sampleBodyResponse.Files.WF ∧
      sampleBodyResponse.Form.WF) ∧ sampleGzipResponse.Headers.WF ∧
      sampleDeflateResponse.Headers.WF ∧ (sampleStreamResponse.Args.WF ∧
      sampleStreamResponse.Headers.WF)) ∧
    ((∃ c, sampleHeadersResponse.compat = .ok c ∧
        CompatRule sampleHeadersResponse.Headers c.Headers) ∧
     (∃ c, sampleGetResponse.compat = .ok c ∧ CompatRule sampleGetResponse.Args c.Args ∧
        CompatRule sampleGetResponse.Headers c.Headers) ∧
     (∃ c, sampleBodyResponse.compat = .ok c ∧ CompatRule sampleBodyResponse.Args c.Args ∧
        CompatRule sampleBodyResponse.Headers c.Headers ∧
        CompatRule sampleBodyResponse.Files c.Files ∧
        CompatRule sampleBodyResponse.Form c.Form) ∧
     (∃ c, sampleGzipResponse.compat = .ok c ∧
        CompatRule sampleGzipResponse.Headers c.Headers) ∧
     (∃ c, sampleDeflateResponse.compat = .ok c ∧
        CompatRule sampleDeflateResponse.Headers c.Headers) ∧
     (∃ c, sampleStreamResponse.compat = .ok c ∧
        CompatRule sampleStreamResponse.Args c.Args ∧
        CompatRule sampleStreamResponse.Headers c.Headers)) :=
  ⟨by decide,
   compat_rule_all_methods sampleHeadersResponse sampleGetResponse sampleBodyResponse
     sampleGzipResponse sampleDeflateResponse sampleStreamResponse (by decide) (by decide)
     (by decide) (by decide) (by decide) (by decide)⟩

/-- C2, as stated, fails: the argument `a`, present with the nil list of values, is rendered
by `bodyResponse.MarshalJSON` as JSON `null`, not as an empty array. -/
theorem nil_values_render_as_null :
    zeroValuesBodyResponse.Args.WF ∧
    zeroValuesBodyResponse.Args.lookup "a" = some .nil ∧
    (GoSlice.nil : GoSlice String).len = 0 ∧
    zeroValuesBodyResponse.MarshalJSON.toOption.bind (·.member "args" "a") = some .null ∧
    zeroValuesBodyResponse.MarshalJSON.toOption.bind (·.member "args" "a") ≠ some (.arr []) := by
  refine ⟨by decide, rfl, rfl, rfl, ?_⟩
  rw [show zeroValuesBodyResponse.MarshalJSON.toOption.bind (·.member "args" "a") = some .null
    from rfl]
  intro h
  cases h

/-- C2, amended: when the `JSON` field encodes, a key present in `Args`, `Headers`, `Files` or
`Form` with zero values is kept by `bodyResponse.MarshalJSON` and is rendered as the empty
array when its list of values is allocated, and as `null` when that list is nil; it is never
rendered as a scalar and never omitted. -/
theorem zero_values_render_null_or_empty (br : bodyResponse) (k : String)
    (vs : GoSlice String) (json : Json) (hjson : jsonMarshalAny br.JSON = .ok json)
    (hlen : vs.len = 0) :
    ∃ j, br.MarshalJSON = .ok j ∧
      (br.Args.WF → br.Args.lookup k = some vs →
        j.member "args" k = some (if vs = .nil then .null else .arr [])) ∧
      (br.Headers.WF → br.Headers.lookup k = some vs →
        j.member "headers" k = some (if vs = .nil then .null else .arr [])) ∧
      (br.Files.WF → br.Files.lookup k = some vs →
        j.member "files" k = some (if vs = .nil then .null else .arr [])) ∧
      (br.Form.WF → br.Form.lookup k = some vs →
        j.member "form" k = some (if vs = .nil then .null else .arr [])) := by
  have key : ∀ M : GoMap (GoSlice String), M.WF → M.lookup k = some vs →
      (compatObject M).field k = some (if vs = .nil then .null else .arr []) := by
    intro M hM hk
    rw [field_compatObject M hM, hk]
    rcases vs with _ | xs
    · rfl
    · rcases xs with _ | ⟨x, t⟩
      · rfl
      · simp [GoSlice.len, GoSlice.toList] at hlen
  refine ⟨_, by rw [bodyResponse_MarshalJSON_eq br, hjson]; rfl, ?_, ?_, ?_, ?_⟩
  · intro hM hk
    have := key _ hM hk
    simpa [Json.member, Json.field, find] using this
  · intro hM hk
    have := key _ hM hk
    simpa [Json.member, Json.field, find] using this
  · intro hM hk
    have := key _ hM hk
    simpa [Json.member, Json.field, find] using this
  · intro hM hk
    have := key _ hM hk
    simpa [Json.member, Json.field, find] using this

/-- The amended C2 on a response with a nil-valued argument and an empty-valued form field. -/
theorem zero_values_render_null_or_empty_witness :
    jsonMarshalAny zeroValuesBodyResponse.JSON = .ok .null ∧
    (GoSlice.mk ([] : List String)).len = 0 ∧
    ∃ j, zeroValuesBodyResponse.MarshalJSON = .ok j ∧ j.member "form" "b" = some (.arr []) := by
  refine ⟨rfl, rfl, ?_⟩
  obtain ⟨j, hj, _, _, _, h⟩ :=
    zero_values_render_null_or_empty zeroValuesBodyResponse "b" (.mk []) .null rfl rfl
  exact ⟨j, hj, h (by decide) rfl⟩

/-- C3, as stated, fails: `bodyResponse.MarshalJSON` returns the encoder's error when the
`JSON` field holds a NaN. -/
theorem marshal_fails_on_nan :
    nanBodyResponse.MarshalJSON = .error .unsupportedValue ∧
    ¬ ∃ j, nanBodyResponse.MarshalJSON = .ok j := by
  refine ⟨rfl, ?_⟩
  rintro ⟨j, hj⟩
  rw [show nanBodyResponse.MarshalJSON = .error .unsupportedValue from rfl] at hj
  cases hj

/-- C3, amended: building the compat value never fails; `MarshalJSON` of the headers, get,
gzip, deflate and stream responses always returns a document; `bodyResponse.MarshalJSON`
returns a document when its `JSON` field encodes and the encoder's error otherwise; and in
every returned document a multimap field of length zero (nil or empty) is the empty object. -/
theorem marshal_total_up_to_json_field (hr : headersResponse) (gr : getResponse)
    (br : bodyResponse) (zr : gzipResponse) (dr : deflateResponse) (sr : streamResponse) :
    ((∃ c, hr.compat = .ok c) ∧ (∃ c, gr.compat = .ok c) ∧ (∃ c, br.compat = .ok c) ∧
      (∃ c, zr.compat = .ok c) ∧ (∃ c, dr.compat = .ok c) ∧ (∃ c, sr.compat = .ok c)) ∧
    (∃ j, hr.MarshalJSON = .ok j ∧
      (hr.Headers.len = 0 → j.field "headers" = some (.obj []))) ∧
    (∃ j, gr.MarshalJSON = .ok j ∧
      (gr.Args.len = 0 → j.field "args" = some (.obj [])) ∧
      (gr.Headers.len = 0 → j.field "headers" = some (.obj []))) ∧
    (match jsonMarshalAny br.JSON with
      | .ok _ => ∃ j, br.MarshalJSON = .ok j ∧
          (br.Args.len = 0 → j.field "args" = some (.obj [])) ∧
          (br.Headers.len = 0 → j.field "headers" = some (.obj [])) ∧
          (br.Files.len = 0 → j.field "files" = some (.obj [])) ∧
          (br.Form.len = 0 → j.field "form" = some (.obj []))
      | .error e => br.MarshalJSON = .error e) ∧
    (∃ j, zr.MarshalJSON = .ok j ∧
      (zr.Headers.len = 0 → j.field "headers" = some (.obj []))) ∧
    (∃ j, dr.MarshalJSON = .ok j ∧
      (dr.Headers.len = 0 → j.field "headers" = some (.obj []))) ∧
    (∃ j, sr.MarshalJSON = .ok j ∧
      (sr.Args.len = 0 → j.field "args" = some (.obj [])) ∧
      (sr.Headers.len = 0 → j.field "headers" = some (.obj []))) := by
  have key : ∀ M : GoMap (GoSlice String), M.len = 0 → compatObject M = .obj [] :=
    fun M h => compatObject_of_len_zero M (List.length_eq_zero.mp h)
  refine ⟨⟨⟨_, headersResponse_compat_eq hr⟩, ⟨_, getResponse_compat_eq gr⟩,
    ⟨_, bodyResponse_compat_eq br⟩, ⟨_, gzipResponse_compat_eq zr⟩,
    ⟨_, deflateResponse_compat_eq dr⟩, ⟨_, streamResponse_compat_eq sr⟩⟩,
    ⟨_, headersResponse_MarshalJSON_eq hr, ?_⟩, ⟨_, getResponse_MarshalJSON_eq gr, ?_, ?_⟩,
    ?_, ⟨_, gzipResponse_MarshalJSON_eq zr, ?_⟩, ⟨_, deflateResponse_MarshalJSON_eq dr, ?_⟩,
    ⟨_, streamResponse_MarshalJSON_eq sr, ?_, ?_⟩⟩
  · intro h; simp [Json.field, find, key _ h]
  · intro h; simp [Json.field, find, key _ h]
  · intro h; simp [Json.field, find, key _ h]
  · cases hj : jsonMarshalAny br.JSON with
    | error e => simp [bodyResponse_MarshalJSON_eq br, hj, Except.map]
    | ok json =>
      refine ⟨_, by rw [bodyResponse_MarshalJSON_eq br, hj]; rfl, ?_, ?_, ?_, ?_⟩
      · intro h; simp [Json.field, find, key _ h]
      · intro h; simp [Json.field, find, key _ h]
      · intro h; simp [Json.field, find, key _ h]
      · intro h; simp [Json.field, find, key _ h]
  · intro h; simp [Json.field, find, key _ h]
  · intro h; simp [Json.field, find, key _ h]
  · intro h; simp [Json.field, find, key _ h]
  · intro h; simp [Json.field, find, key _ h]

/-- The amended C3 on sample responses: the nil `Files` and the empty `Form` of a
`bodyResponse` and the nil `Args` of a `streamResponse` are rendered as the empty object. -/
theorem marshal_total_up_to_json_field_witness :
    (sampleBodyResponse.Files.len = 0 ∧ sampleBodyResponse.Form.len = 0 ∧
      sampleStreamResponse.Args.len = 0) ∧
    (∃ j, sampleBodyResponse.MarshalJSON = .ok j ∧ j.field "files" = some (.obj []) ∧
      j.field "form" = some (.obj [])) ∧
    (∃ j, sampleStreamResponse.MarshalJSON = .ok j ∧ j.field "args" = some (.obj [])) := by
  have h := marshal_total_up_to_json_field sampleHeadersResponse sampleGetResponse
    sampleBodyResponse sampleGzipResponse sampleDeflateResponse sampleStreamResponse
  obtain ⟨_, _, _, hb, _, _, j', hj', hs, _⟩ := h
  rw [show jsonMarshalAny sampleBodyResponse.JSON = .ok (.arr [.bool true]) from rfl] at hb
  obtain ⟨j, hj, _, _, hfiles, hform⟩ := hb
  exact ⟨⟨rfl, rfl, rfl⟩, ⟨j, hj, hfiles rfl, hform rfl⟩, ⟨j', hj', hs rfl⟩⟩

/-- C4: the document returned by `MarshalJSON` is an object with exactly the member names of
its response shape; a `bodyResponse` yields one exactly when its `JSON` field encodes. -/
theorem marshal_field_names (gr : getResponse) (br : bodyResponse) (zr : gzipResponse)
    (dr : deflateResponse) (sr : streamResponse) :
    gr.MarshalJSON.toOption.map Json.fieldNames = some ["args", "headers", "origin", "url"] ∧
    br.MarshalJSON.toOption.map Json.fieldNames =
      (jsonMarshalAny br.JSON).toOption.map (fun _ =>
        ["args", "headers", "origin", "url", "data", "files", "form", "json"]) ∧
    zr.MarshalJSON.toOption.map Json.fieldNames = some ["headers", "origin", "gzipped"] ∧
    dr.MarshalJSON.toOption.map Json.fieldNames = some ["headers", "origin", "deflated"] ∧
    sr.MarshalJSON.toOption.map Json.fieldNames =
      some ["id", "args", "headers", "origin", "url"] := by
  refine ⟨?_, ?_, ?_, ?_, ?_⟩
  · rw [getResponse_MarshalJSON_eq gr]; rfl
  · rw [bodyResponse_MarshalJSON_eq br]
    cases jsonMarshalAny br.JSON <;> rfl
  · rw [gzipResponse_MarshalJSON_eq zr]; rfl
  · rw [deflateResponse_MarshalJSON_eq dr]; rfl
  · rw [streamResponse_MarshalJSON_eq sr]; rfl

/-! ## The handler of `HTTPBin` -/

theorem HTTPBin.Handler_eq {Observer : Type} (h : HTTPBin Observer) :
    h.Handler = .ok
      (match h.Observer with
       | some o => .observe o (.autohead (.preflight
          (.limitRequestSize h.MaxBodySize (.mux routeTable))))
       | none => .autohead (.preflight (.limitRequestSize h.MaxBodySize (.mux routeTable)))) := by
  obtain ⟨a, b, o, d⟩ := h
  cases o <;> rfl

theorem HTTPBin.Handler_routes {Observer : Type} (h : HTTPBin Observer) :
    h.Handler.map Handler.routes = .ok routeTable := by
  rw [h.Handler_eq]
  cases h.Observer <;> rfl

theorem HTTPBin.Handler_map_routes {Observer α : Type} (h : HTTPBin Observer)
    (g : ServeMux → α) : h.Handler.map (fun hd => g hd.routes) = .ok (g routeTable) := by
  rw [h.Handler_eq]
  cases h.Observer <;> rfl

theorem ServeMux.Handler_of_registered (mux : ServeMux) (pattern : String) (e : muxEntry)
    (h : mux.m.lookup pattern = some e) : mux.Handler pattern = .handler e.h e.pattern := by
  simp [ServeMux.Handler, ServeMux.shouldRedirect, ServeMux.matchPath, h]

/-- C5, as stated, fails: with an observer configured, `observe` is the outermost stage and
`limitRequestSize` the innermost, the reverse of the claimed order. -/
theorem observe_outermost_limit_innermost :
    observedHTTPBin.Observer = some () ∧
    observedHTTPBin.Handler.map Handler.stages =
      .ok [.observe, .autohead, .preflight, .limitRequestSize] ∧
    observedHTTPBin.Handler.map Handler.stages ≠
      .ok [.limitRequestSize, .preflight, .autohead, .observe] := by
  refine ⟨rfl, rfl, ?_⟩
  rw [show observedHTTPBin.Handler.map Handler.stages =
    .ok [.observe, .autohead, .preflight, .limitRequestSize] from rfl]
  intro h
  cases h

/-- C5, amended: with an observer configured, the handler that `Handler` returns wraps the
route table in the stages `observe`, `autohead`, `preflight`, `limitRequestSize` from the
outermost to the innermost. -/
theorem handler_stage_order {Observer : Type} (h : HTTPBin Observer) (o : Observer)
    (ho : h.Observer = some o) :
    h.Handler = .ok (.observe o (.autohead (.preflight
      (.limitRequestSize h.MaxBodySize (.mux routeTable))))) ∧
    h.Handler.map Handler.stages = .ok [.observe, .autohead, .preflight, .limitRequestSize] := by
  rw [h.Handler_eq, ho]
  exact ⟨rfl, rfl⟩

/-- The amended C5 on an `HTTPBin` built with `WithObserver`. -/
theorem handler_stage_order_witness :
    observedHTTPBin.Observer = some () ∧
    observedHTTPBin.Handler = .ok (.observe () (.autohead (.preflight
      (.limitRequestSize observedHTTPBin.MaxBodySize (.mux routeTable))))) ∧
    observedHTTPBin.Handler.map Handler.stages =
      .ok [.observe, .autohead, .preflight, .limitRequestSize] :=
  ⟨rfl, handler_stage_order observedHTTPBin () rfl⟩

/-- C6, as stated, fails: the endpoint route `/ip` is registered without the `methods` gate,
so a `DELETE` request to it reaches the endpoint. -/
theorem ip_route_is_ungated :
    observedHTTPBin.Handler.map (fun hd => hd.routes.m.lookup "/ip") =
      .ok (some { h := .endpoint .IP, pattern := "/ip" }) ∧
    (HandlerFunc.endpoint .IP).allowedMethods = none ∧
    HandlerFunc.endpoint .IP ≠ .NotFound ∧
    HandlerFunc.endpoint .IP ≠ .notImplementedHandler ∧
    observedHTTPBin.Handler.map (fun hd => hd.routes.ServeHTTP "DELETE" "/ip") =
      .ok (.endpoint .IP) := by
  refine ⟨rfl, rfl, by decide, by decide, rfl⟩

/-- C6, amended: exactly nine routes are registered through the `methods` gate, each with a
non-empty set of allowed methods, and a request to one of them with a method outside its
set is answered as method-not-allowed; the other thirty-eight endpoint routes are registered
without a gate and are reached under every method. -/
theorem gated_routes_are_exactly_nine {Observer : Type} (h : HTTPBin Observer) :
    h.Handler.map (fun hd => hd.routes.gatedRoutes) =
      .ok [("/", ["GET"]), ("/forms/post", ["GET"]), ("/encoding/utf8", ["GET"]),
        ("/delete", ["DELETE"]), ("/get", ["GET"]), ("/head", ["HEAD"]),
        ("/patch", ["PATCH"]), ("/post", ["POST"]), ("/put", ["PUT"])] ∧
    (∀ (pattern method : String) (f : HandlerFunc) (allowed : List String),
      h.Handler.map (fun hd => hd.routes.m.lookup pattern) =
        .ok (some { h := .methods f allowed, pattern := pattern }) →
      method ∉ allowed →
      h.Handler.map (fun hd => hd.routes.ServeHTTP method pattern) =
        .ok (.methodNotAllowed allowed)) ∧
    h.Handler.map (fun hd => hd.routes.ungatedRoutes) =
      .ok [("/ip", .IP), ("/user-agent", .UserAgent), ("/headers", .Headers),
        ("/response-headers", .ResponseHeaders), ("/status/", .Status),
        ("/unstable", .Unstable), ("/redirect/", .Redirect),
        ("/relative-redirect/", .RelativeRedirect),
        ("/absolute-redirect/", .AbsoluteRedirect), ("/redirect-to", .RedirectTo),
        ("/cookies", .Cookies), ("/cookies/set", .SetCookies),
        ("/cookies/delete", .DeleteCookies), ("/basic-auth/", .BasicAuth),
        ("/hidden-basic-auth/", .HiddenBasicAuth), ("/digest-auth/", .DigestAuth),
        ("/bearer", .Bearer), ("/deflate", .Deflate), ("/gzip", .Gzip),
        ("/stream/", .Stream), ("/delay/", .Delay), ("/drip", .Drip), ("/range/", .Range),
        ("/bytes/", .Bytes), ("/stream-bytes/", .StreamBytes), ("/html", .HTML),
        ("/robots.txt", .Robots), ("/deny", .Deny), ("/cache", .Cache),
        ("/cache/", .CacheControl), ("/etag/", .ETag), ("/links/", .Links),
        ("/image", .ImageAccept), ("/image/", .Image), ("/xml", .XML), ("/json", .JSON),
        ("/uuid", .UUID), ("/base64/", .Base64)] ∧
    (∀ (pattern method : String) (ep : Endpoint),
      h.Handler.map (fun hd => hd.routes.m.lookup pattern) =
        .ok (some { h := .endpoint ep, pattern := pattern }) →
      h.Handler.map (fun hd => hd.routes.ServeHTTP method pattern) = .ok (.endpoint ep)) := by
  refine ⟨?_, ?_, ?_, ?_⟩
  · exact h.Handler_map_routes fun mux => mux.gatedRoutes
  · intro pattern method f allowed hl hm
    have hl' := (h.Handler_map_routes fun mux => mux.m.lookup pattern).symm.trans hl
    injection hl' with hl'
    refine (h.Handler_map_routes fun mux => mux.ServeHTTP method pattern).trans ?_
    simp [ServeMux.ServeHTTP, ServeMux.Handler_of_registered _ _ _ hl', HandlerFunc.ServeHTTP,
      methods, hm]
  · exact h.Handler_map_routes fun mux => mux.ungatedRoutes
  · intro pattern method ep hl
    have hl' := (h.Handler_map_routes fun mux => mux.m.lookup pattern).symm.trans hl
    injection hl' with hl'
    refine (h.Handler_map_routes fun mux => mux.ServeHTTP method pattern).trans ?_
    simp [ServeMux.ServeHTTP, ServeMux.Handler_of_registered _ _ _ hl', HandlerFunc.ServeHTTP]

/-- The amended C6 on `/post`, gated to `POST`, requested with `GET`. -/
theorem gated_routes_are_exactly_nine_witness :
    observedHTTPBin.Handler.map (fun hd => hd.routes.m.lookup "/post") =
      .ok (some { h := .methods (.endpoint .RequestWithBody) ["POST"], pattern := "/post" }) ∧
    "GET" ∉ ["POST"] ∧
    observedHTTPBin.Handler.map (fun hd => hd.routes.ServeHTTP "GET" "/post") =
      .ok (.methodNotAllowed ["POST"]) :=
  ⟨rfl, by decide,
   (gated_routes_are_exactly_nine observedHTTPBin).2.1 "/post" "GET" _ _ rfl (by decide)⟩

/-- C7 fails on the code at `/range`, `/etag` and `/base64`: the subtree patterns `/range/`,
`/etag/` and `/base64/` are registered, the paths without the trailing slash are not, and the
route table answers them with its redirect to the slash-terminated path; the twelve other
suffix-less paths are registered and mapped to `http.NotFound`. -/
theorem missing_not_found_overrides {Observer : Type} (h : HTTPBin Observer) :
    h.Handler.map (fun hd => ["/range/", "/etag/", "/base64/"].map fun p =>
        (hd.routes.m.lookup p).map fun e => e.h) =
      .ok [some (.endpoint .Range), some (.endpoint .ETag), some (.endpoint .Base64)] ∧
    h.Handler.map (fun hd => ["/range", "/etag", "/base64"].map fun p =>
        (hd.routes.m.lookup p, hd.routes.Handler p)) =
      .ok [(none, .redirect "/range/"), (none, .redirect "/etag/"),
        (none, .redirect "/base64/")] ∧
    h.Handler.map (fun hd => ["/status", "/redirect", "/relative-redirect",
        "/absolute-redirect", "/basic-auth", "/hidden-basic-auth", "/digest-auth", "/stream",
        "/delay", "/bytes", "/stream-bytes", "/links"].map fun p => hd.routes.Handler p) =
      .ok [.handler .NotFound "/status", .handler .NotFound "/redirect",
        .handler .NotFound "/relative-redirect", .handler .NotFound "/absolute-redirect",
        .handler .NotFound "/basic-auth", .handler .NotFound "/hidden-basic-auth",
        .handler .NotFound "/digest-auth", .handler .NotFound "/stream",
        .handler .NotFound "/delay", .handler .NotFound "/bytes",
        .handler .NotFound "/stream-bytes", .handler .NotFound "/links"] := by
  refine ⟨?_, ?_, ?_⟩
  · exact (h.Handler_map_routes fun mux => ["/range/", "/etag/", "/base64/"].map fun p =>
      (mux.m.lookup p).map fun e => e.h).trans rfl
  · exact (h.Handler_map_routes fun mux => ["/range", "/etag", "/base64"].map fun p =>
      (mux.m.lookup p, mux.Handler p)).trans rfl
  · exact (h.Handler_map_routes fun mux => ["/status", "/redirect", "/relative-redirect",
      "/absolute-redirect", "/basic-auth", "/hidden-basic-auth", "/digest-auth", "/stream",
      "/delay", "/bytes", "/stream-bytes", "/links"].map fun p => mux.Handler p).trans
      rfl

/-- C8: under every method, a request to `/redirect`, `/relative-redirect`,
`/absolute-redirect`, `/status`, `/stream` or `/delay` is routed to the `http.NotFound`
handler registered under exactly that path, and is answered not-found, not by a redirect. -/
theorem suffixless_paths_not_found {Observer : Type} (h : HTTPBin Observer)
    (method : String) :
    h.Handler.map (fun hd => ["/redirect", "/relative-redirect", "/absolute-redirect",
        "/status", "/stream", "/delay"].map fun p =>
        (hd.routes.Handler p, hd.routes.ServeHTTP method p)) =
      .ok [(.handler .NotFound "/redirect", .notFound),
        (.handler .NotFound "/relative-redirect", .notFound),
        (.handler .NotFound "/absolute-redirect", .notFound),
        (.handler .NotFound "/status", .notFound),
        (.handler .NotFound "/stream", .notFound),
        (.handler .NotFound "/delay", .notFound)] :=
  (h.Handler_map_routes fun mux => ["/redirect", "/relative-redirect", "/absolute-redirect",
    "/status", "/stream", "/delay"].map fun p =>
    (mux.Handler p, mux.ServeHTTP method p)).trans rfl

/-- C9: `New()` without options has `MaxBodySize` 1048576, `MaxDuration` ten seconds,
`DefaultParams` of two seconds, two seconds and ten bytes, and no observer. -/
theorem new_defaults {Observer : Type} :
    (New ([] : List (OptionFunc Observer))).MaxBodySize = 1048576 ∧
    (New ([] : List (OptionFunc Observer))).MaxDuration = 10 * Second ∧
    (New ([] : List (OptionFunc Observer))).MaxDuration = 10000000000 ∧
    (New ([] : List (OptionFunc Observer))).DefaultParams.DripDuration = 2 * Second ∧
    (New ([] : List (OptionFunc Observer))).DefaultParams.DripDelay = 2 * Second ∧
    (New ([] : List (OptionFunc Observer))).DefaultParams.DripNumBytes = 10 ∧
    (New ([] : List (OptionFunc Observer))).Observer = none := by
  refine ⟨?_, ?_, ?_, ?_, ?_, ?_, ?_⟩ <;>
    simp [New, DefaultMaxBodySize, DefaultMaxDuration, DefaultDefaultParams, Second]

/-- C10: `/post`, `/put`, `/patch` and `/delete` are registered as `RequestWithBody` behind
a gate for the one method of the same name, `/get` as `Get` behind a gate for `GET` and
`/head` as `Get` behind a gate for `HEAD`; each path reaches its endpoint under its method,
no body-bearing method reaches `Get` and neither `GET` nor `HEAD` reaches
`RequestWithBody` on these paths. -/
theorem echo_routes_gated_by_name {Observer : Type} (h : HTTPBin Observer) :
    h.Handler.map (fun hd => ["/post", "/put", "/patch", "/delete", "/get", "/head"].map
        fun p => hd.routes.Handler p) =
      .ok [.handler (.methods (.endpoint .RequestWithBody) ["POST"]) "/post",
        .handler (.methods (.endpoint .RequestWithBody) ["PUT"]) "/put",
        .handler (.methods (.endpoint .RequestWithBody) ["PATCH"]) "/patch",
        .handler (.methods (.endpoint .RequestWithBody) ["DELETE"]) "/delete",
        .handler (.methods (.endpoint .Get) ["GET"]) "/get",
        .handler (.methods (.endpoint .Get) ["HEAD"]) "/head"] ∧
    h.Handler.map (fun hd => [("POST", "/post"), ("PUT", "/put"), ("PATCH", "/patch"),
        ("DELETE", "/delete"), ("GET", "/get"), ("HEAD", "/head")].map
        fun r => hd.routes.ServeHTTP r.1 r.2) =
      .ok [.endpoint .RequestWithBody, .endpoint .RequestWithBody, .endpoint .RequestWithBody,
        .endpoint .RequestWithBody, .endpoint .Get, .endpoint .Get] ∧
    h.Handler.map (fun hd => ["POST", "PUT", "PATCH", "DELETE"].all fun m =>
        ["/post", "/put", "/patch", "/delete", "/get", "/head"].all fun p =>
          hd.routes.ServeHTTP m p != .endpoint .Get) = .ok true ∧
    h.Handler.map (fun hd => ["GET", "HEAD"].all fun m =>
        ["/post", "/put", "/patch", "/delete", "/get", "/head"].all fun p =>
          hd.routes.ServeHTTP m p != .endpoint .RequestWithBody) = .ok true := by
  refine ⟨?_, ?_, ?_, ?_⟩
  · exact (h.Handler_map_routes fun mux =>
      ["/post", "/put", "/patch", "/delete", "/get", "/head"].map fun p =>
        mux.Handler p).trans rfl
  · exact (h.Handler_map_routes fun mux => [("POST", "/post"), ("PUT", "/put"),
      ("PATCH", "/patch"), ("DELETE", "/delete"), ("GET", "/get"), ("HEAD", "/head")].map
      fun r => mux.ServeHTTP r.1 r.2).trans rfl
  · exact (h.Handler_map_routes fun mux => ["POST", "PUT", "PATCH", "DELETE"].all fun m =>
      ["/post", "/put", "/patch", "/delete", "/get", "/head"].all fun p =>
        mux.ServeHTTP m p != .endpoint .Get).trans rfl
  · exact (h.Handler_map_routes fun mux => ["GET", "HEAD"].all fun m =>
      ["/post", "/put", "/patch", "/delete", "/get", "/head"].all fun p =>
        mux.ServeHTTP m p != .endpoint .RequestWithBody).trans rfl

/-! ## Later statements on the route table, the serializer and the configuration -/

/-- C12: under every method a request to `/brotli` is routed to `notImplementedHandler`,
registered under exactly that path and not under the catch-all `/`, and is answered
not-implemented; that handler differs from `http.NotFound`. -/
theorem brotli_not_implemented {Observer : Type} (h : HTTPBin Observer) (method : String) :
    h.Handler.map (fun hd => (hd.routes.Handler "/brotli",
        hd.routes.ServeHTTP method "/brotli")) =
      .ok (.handler .notImplementedHandler "/brotli", .notImplemented) ∧
    HandlerFunc.notImplementedHandler ≠ HandlerFunc.NotFound ∧
    Outcome.notImplemented ≠ Outcome.notFound ∧
    Routed.handler .notImplementedHandler "/brotli" ≠
      Routed.handler (.methods (.endpoint .Index) ["GET"]) "/" := by
  refine ⟨?_, by decide, by decide, by decide⟩
  exact (h.Handler_map_routes fun mux =>
    (mux.Handler "/brotli", mux.ServeHTTP method "/brotli")).trans rfl

theorem assign_of_not_mem {V : Type} (l : List (String × V)) (k : String) (v : V)
    (h : k ∉ l.map Prod.fst) : assign l k v = l ++ [(k, v)] := by
  induction l with
  | nil => rfl
  | cons e t ih =>
    obtain ⟨a, b⟩ := e
    rw [List.map_cons, List.mem_cons, not_or] at h
    have hne : ¬ a = k := fun hak => h.1 hak.symm
    simp [assign, hne, ih h.2]

theorem compatEntries_of_nodup (l : List (String × GoSlice String))
    (acc : List (String × GoAny)) (h : (acc.map Prod.fst ++ l.map Prod.fst).Nodup) :
    compatEntries l acc = acc ++ l.map fun e => (e.1, compatValue e.2) := by
  induction l generalizing acc with
  | nil => simp [compatEntries]
  | cons e t ih =>
    have hk : e.1 ∉ acc.map Prod.fst := by
      intro hmem
      have := List.nodup_append.mp h
      exact this.2.2 hmem (by simp)
    show compatEntries t (assign acc e.1 (compatValue e.2)) = _
    rw [assign_of_not_mem _ _ _ hk, ih]
    · simp
    · simpa [List.append_assoc] using h

theorem compatMap_eq_CompatSerializer (M : GoMap (GoSlice String)) (h : M.WF) :
    compatMap M = CompatSerializer M := by
  unfold compatMap CompatSerializer
  rw [compatEntries_of_nodup _ _ (by simpa [GoMap.WF, GoMap.keys] using h)]
  simp only [List.nil_append, GoMap.mk.injEq]
  apply List.map_congr_left
  intro e _
  simp only [compatValue]

/-- C14, as stated, fails: two `bodyResponse` values with the same `Args`, `Headers`, `Files`
and `Form` that differ in the `JSON` field alone are not rendered alike, since
`bodyResponse.MarshalJSON` returns no document when the `JSON` field does not encode. -/
theorem rendering_depends_on_json_field :
    nilJSONBodyResponse.Args = nanBodyResponse.Args ∧
    nilJSONBodyResponse.Headers = nanBodyResponse.Headers ∧
    nilJSONBodyResponse.Files = nanBodyResponse.Files ∧
    nilJSONBodyResponse.Form = nanBodyResponse.Form ∧
    nilJSONBodyResponse.MarshalJSON.toOption.bind (·.field "args") = some (.obj []) ∧
    nanBodyResponse.MarshalJSON.toOption.bind (·.field "args") = none ∧
    nilJSONBodyResponse.MarshalJSON.toOption.bind (·.field "args") ≠
      nanBodyResponse.MarshalJSON.toOption.bind (·.field "args") := by
  refine ⟨rfl, rfl, rfl, rfl, rfl, rfl, ?_⟩
  rw [show nilJSONBodyResponse.MarshalJSON.toOption.bind (·.field "args") = some (.obj [])
    from rfl, show nanBodyResponse.MarshalJSON.toOption.bind (·.field "args") = none from rfl]
  intro h
  cases h

/-- C14, amended: the compat map of every multimap field of every response shape is one and
the same function of that field alone (`compatMap`), which on a Go map is the
`CompatSerializer` of the specification, so replacing the other fields of a `bodyResponse`
leaves it unchanged; the rendered member of a `bodyResponse` is a function of its own field
whenever the `JSON` field encodes, and there is no document otherwise. -/
theorem compat_same_function_everywhere (hr : headersResponse) (gr : getResponse)
    (br : bodyResponse) (zr : gzipResponse) (dr : deflateResponse) (sr : streamResponse)
    (M A H F Fm : GoMap (GoSlice String)) (o u d : String) (j : GoAny) :
    (hr.compat.map (·.Headers) = .ok (compatMap hr.Headers) ∧
      gr.compat.map (·.Headers) = .ok (compatMap gr.Headers) ∧
      br.compat.map (·.Headers) = .ok (compatMap br.Headers) ∧
      zr.compat.map (·.Headers) = .ok (compatMap zr.Headers) ∧
      dr.compat.map (·.Headers) = .ok (compatMap dr.Headers) ∧
      sr.compat.map (·.Headers) = .ok (compatMap sr.Headers)) ∧
    (gr.compat.map (·.Args) = .ok (compatMap gr.Args) ∧
      br.compat.map (·.Args) = .ok (compatMap br.Args) ∧
      sr.compat.map (·.Args) = .ok (compatMap sr.Args)) ∧
    (br.compat.map (·.Files) = .ok (compatMap br.Files) ∧
      br.compat.map (·.Form) = .ok (compatMap br.Form)) ∧
    ((bodyResponse.compat ⟨br.Args, H, o, u, d, F, Fm, j⟩).map (·.Args) =
        br.compat.map (·.Args) ∧
      (bodyResponse.compat ⟨A, br.Headers, o, u, d, F, Fm, j⟩).map (·.Headers) =
        br.compat.map (·.Headers) ∧
      (bodyResponse.compat ⟨A, H, o, u, d, br.Files, Fm, j⟩).map (·.Files) =
        br.compat.map (·.Files) ∧
      (bodyResponse.compat ⟨A, H, o, u, d, F, br.Form, j⟩).map (·.Form) =
        br.compat.map (·.Form)) ∧
    (br.MarshalJSON.toOption.bind (·.field "args") =
        (jsonMarshalAny br.JSON).toOption.map (fun _ => compatObject br.Args) ∧
      br.MarshalJSON.toOption.bind (·.field "headers") =
        (jsonMarshalAny br.JSON).toOption.map (fun _ => compatObject br.Headers) ∧
      br.MarshalJSON.toOption.bind (·.field "files") =
        (jsonMarshalAny br.JSON).toOption.map (fun _ => compatObject br.Files) ∧
      br.MarshalJSON.toOption.bind (·.field "form") =
        (jsonMarshalAny br.JSON).toOption.map (fun _ => compatObject br.Form)) ∧
    (M.WF → compatMap M = CompatSerializer M) := by
  refine ⟨⟨?_, ?_, ?_, ?_, ?_, ?_⟩, ⟨?_, ?_, ?_⟩, ⟨?_, ?_⟩, ⟨?_, ?_, ?_, ?_⟩,
    ⟨?_, ?_, ?_, ?_⟩, compatMap_eq_CompatSerializer M⟩
  · rw [headersResponse_compat_eq]; rfl
  · rw [getResponse_compat_eq]; rfl
  · rw [bodyResponse_compat_eq]; rfl
  · rw [gzipResponse_compat_eq]; rfl
  · rw [deflateResponse_compat_eq]; rfl
  · rw [streamResponse_compat_eq]; rfl
  · rw [getResponse_compat_eq]; rfl
  · rw [bodyResponse_compat_eq]; rfl
  · rw [streamResponse_compat_eq]; rfl
  · rw [bodyResponse_compat_eq]; rfl
  · rw [bodyResponse_compat_eq]; rfl
  · rw [bodyResponse_compat_eq, bodyResponse_compat_eq]; rfl
  · rw [bodyResponse_compat_eq, bodyResponse_compat_eq]; rfl
  · rw [bodyResponse_compat_eq, bodyResponse_compat_eq]; rfl
  · rw [bodyResponse_compat_eq, bodyResponse_compat_eq]; rfl
  · rw [bodyResponse_MarshalJSON_eq]; cases jsonMarshalAny br.JSON <;> rfl
  · rw [bodyResponse_MarshalJSON_eq]; cases jsonMarshalAny br.JSON <;> rfl
  · rw [bodyResponse_MarshalJSON_eq]; cases jsonMarshalAny br.JSON <;> rfl
  · rw [bodyResponse_MarshalJSON_eq]; cases jsonMarshalAny br.JSON <;> rfl

/-- The amended C14 on the sample responses, with the headers of the sample `getResponse`
as the Go map. -/
theorem compat_same_function_everywhere_witness :
    sampleGetResponse.Headers.WF ∧
    compatMap sampleGetResponse.Headers = CompatSerializer sampleGetResponse.Headers ∧
    sampleGetResponse.compat.map (·.Headers) =
      .ok (CompatSerializer sampleGetResponse.Headers) ∧
    sampleGzipResponse.compat.map (·.Headers) =
      .ok (CompatSerializer sampleGetResponse.Headers) := by
  have h := compat_same_function_everywhere sampleHeadersResponse sampleGetResponse
    sampleBodyResponse sampleGzipResponse sampleDeflateResponse sampleStreamResponse
    sampleGetResponse.Headers .nil .nil .nil .nil "" "" "" .nil
  have hwf : sampleGetResponse.Headers.WF := by decide
  have heq := h.2.2.2.2.2 hwf
  refine ⟨hwf, heq, ?_, ?_⟩
  · rw [h.1.2.1, heq]
  · rw [h.1.2.2.2.1]
    exact congrArg Except.ok heq

theorem foldl_options_field {Observer β : Type} (field : HTTPBin Observer → β)
    (pick : Opt Observer → Option β)
    (hpick : ∀ (o : Opt Observer) (h : HTTPBin Observer),
      field (o.toFunc h) = (pick o).getD (field h))
    (opts : List (Opt Observer)) (h : HTTPBin Observer) :
    field ((opts.map Opt.toFunc).foldl (fun h opt => opt h) h) =
      (lastSome pick opts).getD (field h) := by
  induction opts generalizing h with
  | nil => rfl
  | cons o rest ih =>
    rw [List.map_cons, List.foldl_cons, ih, hpick]
    simp only [lastSome]
    cases lastSome pick rest <;> rfl

/-- C15: each option sets its own field of the `HTTPBin` it is given and leaves the three
other fields unchanged, and `New` on a list of options has in each field the argument of the
last option in the list for that field, or the default when the list has none. -/
theorem options_set_own_field_last_wins {Observer : Type} (h : HTTPBin Observer) (m d : Int)
    (o : Option Observer) (p : DefaultParams) (opts : List (Opt Observer)) :
    ((WithMaxBodySize m h).MaxBodySize = m ∧ (WithMaxBodySize m h).MaxDuration = h.MaxDuration ∧
      (WithMaxBodySize m h).Observer = h.Observer ∧
      (WithMaxBodySize m h).DefaultParams = h.DefaultParams) ∧
    ((WithMaxDuration d h).MaxDuration = d ∧ (WithMaxDuration d h).MaxBodySize = h.MaxBodySize ∧
      (WithMaxDuration d h).Observer = h.Observer ∧
      (WithMaxDuration d h).DefaultParams = h.DefaultParams) ∧
    ((WithObserver o h).Observer = o ∧ (WithObserver o h).MaxBodySize = h.MaxBodySize ∧
      (WithObserver o h).MaxDuration = h.MaxDuration ∧
      (WithObserver o h).DefaultParams = h.DefaultParams) ∧
    ((WithDefaultParams p h).DefaultParams = p ∧
      (WithDefaultParams p h).MaxBodySize = h.MaxBodySize ∧
      (WithDefaultParams p h).MaxDuration = h.MaxDuration ∧
      (WithDefaultParams p h).Observer = h.Observer) ∧
    ((New (opts.map Opt.toFunc)).MaxBodySize =
        (lastSome Opt.maxBodySize? opts).getD DefaultMaxBodySize ∧
      (New (opts.map Opt.toFunc)).MaxDuration =
        (lastSome Opt.maxDuration? opts).getD DefaultMaxDuration ∧
      (New (opts.map Opt.toFunc)).Observer = (lastSome Opt.observer? opts).getD none ∧
      (New (opts.map Opt.toFunc)).DefaultParams =
        (lastSome Opt.defaultParams? opts).getD DefaultDefaultParams) := by
  refine ⟨⟨rfl, rfl, rfl, rfl⟩, ⟨rfl, rfl, rfl, rfl⟩, ⟨rfl, rfl, rfl, rfl⟩,
    ⟨rfl, rfl, rfl, rfl⟩, ?_, ?_, ?_, ?_⟩
  · exact foldl_options_field (·.MaxBodySize) Opt.maxBodySize?
      (fun o h => by cases o <;> rfl) opts _
  · exact foldl_options_field (·.MaxDuration) Opt.maxDuration?
      (fun o h => by cases o <;> rfl) opts _
  · exact foldl_options_field (·.Observer) Opt.observer?
      (fun o h => by cases o <;> rfl) opts _
  · exact foldl_options_field (·.DefaultParams) Opt.defaultParams?
      (fun o h => by cases o <;> rfl) opts _

/-- C18: the compat value has the non-multimap fields of the response it is built from:
`Origin` and `URL` (get, body, stream), `Data` and `JSON` (body), `ID` (stream), `Origin`
and `Gzipped` (gzip), `Origin` and `Deflated` (deflate). -/
theorem compat_keeps_other_fields (gr : getResponse) (br : bodyResponse) (zr : gzipResponse)
    (dr : deflateResponse) (sr : streamResponse) :
    (∃ c, gr.compat = .ok c ∧ c.Origin = gr.Origin ∧ c.URL = gr.URL) ∧
    (∃ c, br.compat = .ok c ∧ c.Origin = br.Origin ∧ c.URL = br.URL ∧ c.Data = br.Data ∧
      c.JSON = br.JSON) ∧
    (∃ c, zr.compat = .ok c ∧ c.Origin = zr.Origin ∧ c.Gzipped = zr.Gzipped) ∧
    (∃ c, dr.compat = .ok c ∧ c.Origin = dr.Origin ∧ c.Deflated = dr.Deflated) ∧
    (∃ c, sr.compat = .ok c ∧ c.ID = sr.ID ∧ c.Origin = sr.Origin ∧ c.URL = sr.URL) :=
  ⟨⟨_, getResponse_compat_eq gr, rfl, rfl⟩,
   ⟨_, bodyResponse_compat_eq br, rfl, rfl, rfl, rfl⟩,
   ⟨_, gzipResponse_compat_eq zr, rfl, rfl⟩,
   ⟨_, deflateResponse_compat_eq dr, rfl, rfl⟩,
   ⟨_, streamResponse_compat_eq sr, rfl, rfl, rfl⟩⟩

/-- C19: for every `HTTPBin`, `Handler` returns a handler: its sixty registrations all
succeed, the patterns of the route table are those sixty in registration order, and they are
pairwise distinct and non-empty. -/
theorem handler_registrations_distinct {Observer : Type} (h : HTTPBin Observer) :
    (∃ hd, h.Handler = .ok hd) ∧
    h.Handler.map (fun hd => hd.routes.m.keys) = .ok registeredPatterns ∧
    registeredPatterns.Nodup ∧ registeredPatterns.length = 60 ∧ "" ∉ registeredPatterns := by
  refine ⟨⟨_, h.Handler_eq⟩, ?_, by decide, rfl, by decide⟩
  exact (h.Handler_map_routes fun mux => mux.m.keys).trans rfl

/-! ## Requests through the middleware -/

theorem observed_nil_of_no_observe {Observer : Type} (readsBody : Endpoint → Bool)
    (hd : Handler Observer) (h : Middleware.observe ∉ hd.stages) (r : Request) :
    (hd.ServeHTTP readsBody r).observed = [] := by
  induction hd generalizing r with
  | mux routes => rfl
  | limitRequestSize max next ih =>
    have h' : Middleware.observe ∉ next.stages := by simpa [Handler.stages] using h
    simp only [Handler.ServeHTTP, limitRequestSize]
    cases r.ContentLength with
    | none => exact ih h' _
    | some n =>
      simp only []
      split
      · rfl
      · exact ih h' _
  | preflight next ih =>
    have h' : Middleware.observe ∉ next.stages := by simpa [Handler.stages] using h
    simp only [Handler.ServeHTTP, preflight]
    split
    · rfl
    · exact ih h' _
  | autohead next ih =>
    have h' : Middleware.observe ∉ next.stages := by simpa [Handler.stages] using h
    simp only [Handler.ServeHTTP, autohead]
    split
    · split
      · exact ih h' _
      · exact ih h' _
    · exact ih h' _
  | observe o next ih =>
    simp [Handler.stages] at h

theorem preflight_reply {Observer : Type} (next : Request → Exchange Observer) (r : Request)
    (hp : r.isPreflight = false) : (preflight next r).reply = (next r).reply := by
  simp [preflight, hp]

theorem limit_reply_declared {Observer : Type} (max : Int)
    (next : Request → Exchange Observer) (r : Request) (n : Nat)
    (hn : r.ContentLength = some n) (hgt : (n : Int) > max) :
    (limitRequestSize max next r).reply = .payloadTooLarge := by
  simp [limitRequestSize, hn, hgt]

theorem limit_reply_within {Observer : Type} (max : Int)
    (next : Request → Exchange Observer) (r : Request)
    (hn : ∀ n, r.ContentLength = some n → (n : Int) ≤ max) :
    limitRequestSize max next r = next { r with BodyLimit := some max } := by
  unfold limitRequestSize
  cases hc : r.ContentLength with
  | none => rfl
  | some n =>
    have := hn n hc
    simp [not_lt.mpr this]

/-- The reply of the stages `preflight` and `limitRequestSize` around a route table to a
request that is not a preflight. -/
theorem inner_reply {Observer : Type} (readsBody : Endpoint → Bool) (max : Int)
    (mux : ServeMux) (r : Request) (hp : r.isPreflight = false) :
    ((Handler.preflight (.limitRequestSize max (.mux mux)) : Handler Observer).ServeHTTP
      readsBody r).reply =
    (limitRequestSize max (fun r =>
      (⟨mux.serveRequest readsBody r, false, false, []⟩ : Exchange Observer)) r).reply := by
  simp only [Handler.ServeHTTP]
  rw [preflight_reply _ _ hp]

theorem isPreflight_get (r : Request) :
    ({ r with Method := "GET" } : Request).isPreflight = false := by
  simp [Request.isPreflight]

theorem isPreflight_head (r : Request) (h : r.Method = "HEAD") : r.isPreflight = false := by
  simp [Request.isPreflight, h]

/-- A declared length over the limit is rejected by the stages below `observe`, unless the
request is a preflight. -/
theorem base_reply_declared {Observer : Type} (readsBody : Endpoint → Bool) (max : Int)
    (mux : ServeMux) (r : Request) (hp : r.isPreflight = false) (n : Nat)
    (hn : r.ContentLength = some n) (hgt : (n : Int) > max) :
    ((Handler.autohead (.preflight (.limitRequestSize max (.mux mux))) :
      Handler Observer).ServeHTTP readsBody r).reply = .payloadTooLarge := by
  have hin : ∀ r' : Request, r'.isPreflight = false → r'.ContentLength = some n →
      ((Handler.preflight (.limitRequestSize max (.mux mux)) : Handler Observer).ServeHTTP
        readsBody r').reply = .payloadTooLarge := by
    intro r' hp' hn'
    rw [inner_reply _ _ _ _ hp']
    exact limit_reply_declared _ _ _ n hn' hgt
  have hget := hin { r with Method := "GET" } (isPreflight_get r) hn
  show (autohead _ r).reply = _
  unfold autohead
  split
  · split
    · rename_i heq
      rw [show ∀ x, Handler.ServeHTTP readsBody
        (Handler.preflight (.limitRequestSize max (.mux mux)) : Handler Observer) x =
        (Handler.preflight (.limitRequestSize max (.mux mux)) : Handler Observer).ServeHTTP
          readsBody x from fun _ => rfl, hget] at heq
      cases heq
    · exact hget
  · exact hin r hp hn

theorem serveRequest_within (readsBody : Endpoint → Bool) (mux : ServeMux) (r : Request)
    (h : r.bodyExceedsLimit = false) :
    mux.serveRequest readsBody r = .routed (mux.ServeHTTP r.Method r.Path) := by
  unfold ServeMux.serveRequest
  cases mux.ServeHTTP r.Method r.Path <;> simp [h]

theorem serveRequest_beyond (readsBody : Endpoint → Bool) (mux : ServeMux) (r : Request)
    (e : Endpoint) (h : r.bodyExceedsLimit = true) (he : readsBody e = true)
    (hr : mux.ServeHTTP r.Method r.Path = .endpoint e) :
    mux.serveRequest readsBody r = .payloadTooLarge := by
  unfold ServeMux.serveRequest
  simp [hr, h, he]

theorem serveRequest_eq_endpoint (readsBody : Endpoint → Bool) (mux : ServeMux) (r : Request)
    (e : Endpoint) (h : mux.serveRequest readsBody r = .routed (.endpoint e)) :
    mux.ServeHTTP r.Method r.Path = .endpoint e := by
  unfold ServeMux.serveRequest at h
  cases ho : mux.ServeHTTP r.Method r.Path with
  | endpoint e' =>
    rw [ho] at h
    simp only [] at h
    split at h
    · cases h
    · injection h with h
  | methodNotAllowed a => rw [ho] at h; injection h with h
  | notFound => rw [ho] at h; injection h with h
  | notImplemented => rw [ho] at h; injection h with h
  | movedPermanently l => rw [ho] at h; injection h with h

theorem serveRequest_methodNotAllowed_iff (readsBody : Endpoint → Bool) (mux : ServeMux)
    (r : Request) (a : List String) :
    mux.serveRequest readsBody r = .routed (.methodNotAllowed a) ↔
      mux.ServeHTTP r.Method r.Path = .methodNotAllowed a := by
  unfold ServeMux.serveRequest
  cases ho : mux.ServeHTTP r.Method r.Path with
  | endpoint e' =>
    simp only []
    split <;> simp
  | methodNotAllowed a' => simp
  | notFound => simp
  | notImplemented => simp
  | movedPermanently l => simp

/-- The reply of the stages below `observe` to a request that is not a preflight and whose
declared length, if any, is within the limit. -/
theorem base_reply_within {Observer : Type} (readsBody : Endpoint → Bool) (max : Int)
    (mux : ServeMux) (r : Request) (hp : r.isPreflight = false)
    (hn : ∀ n, r.ContentLength = some n → (n : Int) ≤ max) :
    ((Handler.autohead (.preflight (.limitRequestSize max (.mux mux))) :
      Handler Observer).ServeHTTP readsBody r).reply =
    if r.Method = "HEAD" then
      match mux.serveRequest readsBody { r with Method := "GET", BodyLimit := some max } with
      | .routed (.methodNotAllowed _) =>
        mux.serveRequest readsBody { r with BodyLimit := some max }
      | x => x
    else mux.serveRequest readsBody { r with BodyLimit := some max } := by
  have hin : ∀ r' : Request, r'.isPreflight = false →
      (∀ n, r'.ContentLength = some n → (n : Int) ≤ max) →
      ((Handler.preflight (.limitRequestSize max (.mux mux)) : Handler Observer).ServeHTTP
        readsBody r').reply = mux.serveRequest readsBody { r' with BodyLimit := some max } := by
    intro r' hp' hn'
    rw [inner_reply _ _ _ _ hp', limit_reply_within _ _ _ hn']
  have hget := hin { r with Method := "GET" } (isPreflight_get r) hn
  have hr := hin r hp hn
  show (autohead (Handler.ServeHTTP readsBody
    (Handler.preflight (.limitRequestSize max (.mux mux)) : Handler Observer)) r).reply = _
  unfold autohead
  by_cases hm : r.Method = "HEAD"
  · simp only [hm, if_true]
    rw [hm] at hr
    split
    · rename_i a heq
      rw [hget] at heq
      rw [heq]
      simpa [hm] using hr
    · rename_i hne
      rw [hget] at hne ⊢
      split
      · rename_i a heq
        exact absurd heq (hne a)
      · rfl
  · simp only [hm, if_false]
    exact hr

theorem base_reply_accepts {Observer : Type} (readsBody : Endpoint → Bool) (max : Int)
    (mux : ServeMux) (r : Request) (hsize : (r.BodySize : Int) ≤ max)
    (hn : ∀ n, r.ContentLength = some n → (n : Int) ≤ max) :
    ((Handler.autohead (.preflight (.limitRequestSize max (.mux mux))) :
      Handler Observer).ServeHTTP readsBody r).reply ≠ .payloadTooLarge := by
  by_cases hp : r.isPreflight = false
  · rw [base_reply_within _ _ _ _ hp hn]
    have hw : ∀ m : String, mux.serveRequest readsBody
        { r with Method := m, BodyLimit := some max } = .routed (mux.ServeHTTP m r.Path) :=
      fun m => serveRequest_within _ _ _
        (by simp [Request.bodyExceedsLimit, not_lt.mpr hsize])
    have hw' := hw r.Method
    split
    · rw [hw "GET"]
      split
      · rw [hw']; intro h; cases h
      · intro h; cases h
    · rw [hw']; intro h; cases h
  · have hp' : r.isPreflight = true := by simpa using hp
    have hm : ¬ r.Method = "HEAD" := by
      intro hm
      rw [isPreflight_head r hm] at hp'
      cases hp'
    show (autohead _ r).reply ≠ _
    simp only [autohead, hm, if_false, Handler.ServeHTTP, preflight, hp', if_true]
    intro h
    cases h

theorem base_reply_beyond {Observer : Type} (readsBody : Endpoint → Bool) (max : Int)
    (mux : ServeMux) (r : Request) (hp : r.isPreflight = false)
    (hsize : (r.BodySize : Int) > max) (hn : r.ContentLength = none) (e : Endpoint)
    (he : readsBody e = true)
    (hreach : ((Handler.autohead (.preflight (.limitRequestSize max (.mux mux))) :
      Handler Observer).ServeHTTP readsBody { r with BodySize := 0 }).reply =
        .routed (.endpoint e)) :
    ((Handler.autohead (.preflight (.limitRequestSize max (.mux mux))) :
      Handler Observer).ServeHTTP readsBody r).reply = .payloadTooLarge := by
  have hn' : ∀ n, r.ContentLength = some n → (n : Int) ≤ max := by
    intro n h; rw [hn] at h; cases h
  rw [base_reply_within _ _ _ _ (by simpa [Request.isPreflight] using hp)
    (by simpa using hn')] at hreach
  rw [base_reply_within _ _ _ _ hp hn']
  have hex : ∀ m : String, ({ r with Method := m, BodyLimit := some max } :
      Request).bodyExceedsLimit = true := by
    intro m; simp [Request.bodyExceedsLimit, hsize]
  simp only [] at hreach
  by_cases hm : r.Method = "HEAD"
  · simp only [hm, if_true] at hreach ⊢
    split at hreach
    · rename_i a heq
      have h405 := (serveRequest_methodNotAllowed_iff _ _ _ _).mp heq
      have h405' := (serveRequest_methodNotAllowed_iff readsBody mux
        { r with Method := "GET", BodyLimit := some max } a).mpr h405
      rw [h405']
      simp only []
      have hend := serveRequest_eq_endpoint _ _ _ _ hreach
      exact serveRequest_beyond _ _ _ e (hex r.Method) he hend
    · have hend := serveRequest_eq_endpoint _ _ _ _ hreach
      rw [serveRequest_beyond readsBody mux { r with Method := "GET", BodyLimit := some max } e
        (hex "GET") he hend]
  · simp only [hm, if_false] at hreach ⊢
    have hend := serveRequest_eq_endpoint _ _ _ _ hreach
    exact serveRequest_beyond _ _ _ e (hex r.Method) he hend

/-- C11: with an observer configured, `observe` occurs exactly once among the stages of the
handler, as the outermost stage, and encloses `limitRequestSize`; every request therefore
yields exactly one observer call, whose record holds the reply sent, and for a request that
`limitRequestSize` rejects the record holds payload-too-large, status 413. -/
theorem observe_once_around_limit {Observer : Type} (readsBody : Endpoint → Bool)
    (h : HTTPBin Observer) (o : Observer) (r : Request) (ho : h.Observer = some o) :
    ∃ hd, h.Handler = .ok hd ∧
      hd.stages.count .observe = 1 ∧ hd.stages.head? = some .observe ∧
      .limitRequestSize ∈ hd.stages.tail ∧
      (hd.ServeHTTP readsBody r).observed =
        [(o, { Method := r.Method, Path := r.Path,
               Reply := (hd.ServeHTTP readsBody r).reply })] ∧
      (r.isPreflight = false → ∀ n, r.ContentLength = some n → (n : Int) > h.MaxBodySize →
        (hd.ServeHTTP readsBody r).reply = .payloadTooLarge ∧
        (hd.ServeHTTP readsBody r).observed =
          [(o, { Method := r.Method, Path := r.Path, Reply := .payloadTooLarge })] ∧
        Reply.payloadTooLarge.status = some 413) := by
  refine ⟨.observe o (.autohead (.preflight (.limitRequestSize h.MaxBodySize
    (.mux routeTable)))), by rw [h.Handler_eq, ho], by simp [Handler.stages], rfl,
    by simp [Handler.stages], ?_, ?_⟩
  · have hnil := observed_nil_of_no_observe readsBody (Handler.autohead (.preflight
      (.limitRequestSize h.MaxBodySize (.mux routeTable))) : Handler Observer)
      (by simp [Handler.stages]) r
    show (observe o _ r).observed = _
    simp only [observe]
    rw [hnil]
    rfl
  · intro hp n hn hgt
    have hrej := @base_reply_declared Observer readsBody h.MaxBodySize routeTable
      r hp n hn hgt
    have hnil := observed_nil_of_no_observe readsBody (Handler.autohead (.preflight
      (.limitRequestSize h.MaxBodySize (.mux routeTable))) : Handler Observer)
      (by simp [Handler.stages]) r
    refine ⟨hrej, ?_, rfl⟩
    show (observe o _ r).observed = _
    simp only [observe]
    rw [hnil, hrej]
    rfl

/-- The statement of C11 on a `POST` that declares one byte over the default limit. -/
theorem observe_once_around_limit_witness :
    observedHTTPBin.Observer = some () ∧ oversizePost.isPreflight = false ∧
    oversizePost.ContentLength = some 1048577 ∧
    ((1048577 : Nat) : Int) > observedHTTPBin.MaxBodySize ∧
    ∃ hd, observedHTTPBin.Handler = .ok hd ∧
      (hd.ServeHTTP bodyEchoReads oversizePost).reply = .payloadTooLarge ∧
      (hd.ServeHTTP bodyEchoReads oversizePost).observed =
        [((), { Method := "POST", Path := "/post", Reply := .payloadTooLarge })] := by
  obtain ⟨hd, hhd, _, _, _, _, hrej⟩ :=
    observe_once_around_limit bodyEchoReads observedHTTPBin () oversizePost rfl
  have hgt : ((1048577 : Nat) : Int) > observedHTTPBin.MaxBodySize := by decide
  obtain ⟨h1, h2, _⟩ := hrej rfl 1048577 rfl hgt
  exact ⟨rfl, rfl, rfl, hgt, hd, hhd, h1, h2⟩

theorem handler_reply_eq_base {Observer : Type} (readsBody : Endpoint → Bool)
    (h : HTTPBin Observer) :
    ∃ hd, h.Handler = .ok hd ∧ ∀ r, (hd.ServeHTTP readsBody r).reply =
      ((Handler.autohead (.preflight (.limitRequestSize h.MaxBodySize (.mux routeTable))) :
        Handler Observer).ServeHTTP readsBody r).reply := by
  rw [h.Handler_eq]
  cases h.Observer with
  | none => exact ⟨_, rfl, fun _ => rfl⟩
  | some o => exact ⟨_, rfl, fun _ => rfl⟩

/-- C13, as stated, fails: a CORS preflight that declares a body of `MaxBodySize + 1` bytes
is answered by `preflight`, which encloses `limitRequestSize`, with the empty success and
not with payload-too-large. -/
theorem preflight_bypasses_body_limit :
    (oversizePreflight.BodySize : Int) =
      (New ([] : List (OptionFunc Unit))).MaxBodySize + 1 ∧
    oversizePreflight.ContentLength = some oversizePreflight.BodySize ∧
    (New ([] : List (OptionFunc Unit))).Handler.map
      (fun hd => (hd.ServeHTTP bodyEchoReads oversizePreflight).reply) =
        .ok .preflightSuccess ∧
    (New ([] : List (OptionFunc Unit))).Handler.map
      (fun hd => (hd.ServeHTTP bodyEchoReads oversizePreflight).reply) ≠
        .ok .payloadTooLarge := by
  refine ⟨by decide, rfl, rfl, ?_⟩
  rw [show (New ([] : List (OptionFunc Unit))).Handler.map
    (fun hd => (hd.ServeHTTP bodyEchoReads oversizePreflight).reply) = .ok .preflightSuccess
    from rfl]
  intro h
  cases h

/-- C13, amended: the limit that the handler enforces on a request that is not a CORS
preflight is `h.MaxBodySize`: a body of exactly that many bytes is not rejected, a declared
length of one byte more is rejected with payload-too-large, and an undeclared body of one
byte more is rejected with payload-too-large when the request is routed to an endpoint that
reads the body (the same request with an empty body reaches that endpoint). -/
theorem body_limit_is_max_body_size {Observer : Type} (readsBody : Endpoint → Bool)
    (h : HTTPBin Observer) (r : Request) (hp : r.isPreflight = false) :
    ∃ hd, h.Handler = .ok hd ∧
      ((r.BodySize : Int) = h.MaxBodySize →
        (∀ n, r.ContentLength = some n → n = r.BodySize) →
        (hd.ServeHTTP readsBody r).reply ≠ .payloadTooLarge) ∧
      ((r.BodySize : Int) = h.MaxBodySize + 1 → r.ContentLength = some r.BodySize →
        (hd.ServeHTTP readsBody r).reply = .payloadTooLarge) ∧
      ((r.BodySize : Int) = h.MaxBodySize + 1 → r.ContentLength = none →
        ∀ e, readsBody e = true →
          (hd.ServeHTTP readsBody { r with BodySize := 0 }).reply = .routed (.endpoint e) →
          (hd.ServeHTTP readsBody r).reply = .payloadTooLarge) := by
  obtain ⟨hd, hhd, hreply⟩ := handler_reply_eq_base readsBody h
  refine ⟨hd, hhd, ?_, ?_, ?_⟩
  · intro hsize hn
    rw [hreply]
    refine base_reply_accepts readsBody _ _ r (le_of_eq hsize) ?_
    intro n hc
    rw [hn n hc]
    exact le_of_eq hsize
  · intro hsize hn
    rw [hreply]
    exact base_reply_declared readsBody _ _ r hp _ hn (by omega)
  · intro hsize hn e he hreach
    rw [hreply] at hreach ⊢
    exact base_reply_beyond readsBody _ _ r hp (by omega) hn e he hreach

/-- The amended C13 on `POST` requests to `/post` at the default limit: the body of exactly
1048576 bytes reaches the endpoint, the declared and the undeclared body of 1048577 bytes are
rejected. -/
theorem body_limit_is_max_body_size_witness :
    (fullPost.isPreflight = false ∧ oversizePost.isPreflight = false ∧
      streamedOversizePost.isPreflight = false) ∧
    ∃ hd, observedHTTPBin.Handler = .ok hd ∧
      (hd.ServeHTTP bodyEchoReads fullPost).reply ≠ .payloadTooLarge ∧
      (hd.ServeHTTP bodyEchoReads oversizePost).reply = .payloadTooLarge ∧
      (hd.ServeHTTP bodyEchoReads streamedOversizePost).reply = .payloadTooLarge := by
  obtain ⟨hd, hhd, h1, _, _⟩ :=
    body_limit_is_max_body_size bodyEchoReads observedHTTPBin fullPost rfl
  obtain ⟨hd2, hhd2, _, h2, _⟩ :=
    body_limit_is_max_body_size bodyEchoReads observedHTTPBin oversizePost rfl
  obtain ⟨hd3, hhd3, _, _, h3⟩ :=
    body_limit_is_max_body_size bodyEchoReads observedHTTPBin streamedOversizePost rfl
  have e2 : hd2 = hd := by
    have := hhd2.symm.trans hhd
    injection this
  have e3 : hd3 = hd := by
    have := hhd3.symm.trans hhd
    injection this
  subst e2 e3
  refine ⟨⟨rfl, rfl, rfl⟩, _, hhd, ?_, ?_, ?_⟩
  · exact h1 (by decide) (fun n hn => by cases hn; rfl)
  · exact h2 (by decide) rfl
  · refine h3 (by decide) rfl .RequestWithBody rfl ?_
    have hv : observedHTTPBin.Handler.map (fun hd => (hd.ServeHTTP bodyEchoReads
        { streamedOversizePost with BodySize := 0 }).reply) =
        .ok (.routed (.endpoint .RequestWithBody)) := rfl
    rw [hhd] at hv
    injection hv

/-- C16: without an observer the handler has no `observe` stage, so no observer call is made
for any request; its stages are `autohead`, `preflight`, `limitRequestSize` around the route
table, and the handler built once an observer is set is `observe` around that same handler. -/
theorem no_observer_no_observe_stage {Observer : Type} (readsBody : Endpoint → Bool)
    (h : HTTPBin Observer) (o : Observer) (r : Request) (hn : h.Observer = none) :
    ∃ hd, h.Handler = .ok hd ∧
      .observe ∉ hd.stages ∧ hd.stages = [.autohead, .preflight, .limitRequestSize] ∧
      hd = .autohead (.preflight (.limitRequestSize h.MaxBodySize (.mux routeTable))) ∧
      (hd.ServeHTTP readsBody r).observed = [] ∧
      (WithObserver (some o) h).Handler = .ok (.observe o hd) ∧
      ((Handler.observe o hd).ServeHTTP readsBody r).reply =
        (hd.ServeHTTP readsBody r).reply := by
  refine ⟨.autohead (.preflight (.limitRequestSize h.MaxBodySize (.mux routeTable))),
    by rw [h.Handler_eq, hn], by simp [Handler.stages], rfl, rfl, ?_, ?_, rfl⟩
  · exact observed_nil_of_no_observe readsBody _ (by simp [Handler.stages]) r
  · rw [HTTPBin.Handler_eq]
    rfl

/-- The statement of C16 on the `HTTPBin` that `New()` returns. -/
theorem no_observer_no_observe_stage_witness :
    (New ([] : List (OptionFunc Unit))).Observer = none ∧
    ∃ hd, (New ([] : List (OptionFunc Unit))).Handler = .ok hd ∧
      hd.stages = [.autohead, .preflight, .limitRequestSize] ∧
      (hd.ServeHTTP bodyEchoReads fullPost).observed = [] ∧
      observedHTTPBin.Handler = .ok (.observe () hd) := by
  obtain ⟨hd, hhd, _, hst, _, hobs, hwith, _⟩ :=
    no_observer_no_observe_stage bodyEchoReads (New ([] : List (OptionFunc Unit))) ()
      fullPost rfl
  exact ⟨rfl, hd, hhd, hst, hobs, hwith⟩

theorem decodeValue_compatValue (vs : GoSlice String) : decodeValue (compatValue vs) = vs := by
  rcases vs with _ | xs
  · rfl
  · rcases xs with _ | ⟨x, _ | ⟨y, ys⟩⟩ <;> rfl

theorem decodeEntries_compatEntries (M : GoMap (GoSlice String)) (h : M.WF) :
    decodeEntries (compatEntries M.entries []) = M.entries := by
  rw [compatEntries_of_nodup _ _ (by simpa [GoMap.WF, GoMap.keys] using h)]
  simp only [decodeEntries, List.nil_append, List.map_map]
  conv_rhs => rw [← List.map_id M.entries]
  apply List.map_congr_left
  intro e _
  simp [decodeValue_compatValue]

theorem compatValue_strings_len (vs xs : GoSlice String)
    (h : compatValue vs = .strings xs) : xs.len ≠ 1 := by
  rcases vs with _ | l
  · simp only [compatValue, GoSlice.toList] at h
    injection h with h
    subst h
    simp [GoSlice.len, GoSlice.toList]
  · rcases l with _ | ⟨x, _ | ⟨y, ys⟩⟩
    · simp only [compatValue, GoSlice.toList] at h
      injection h with h
      subst h
      simp [GoSlice.len, GoSlice.toList]
    · simp [compatValue, GoSlice.toList] at h
    · simp only [compatValue, GoSlice.toList] at h
      injection h with h
      subst h
      simp [GoSlice.len, GoSlice.toList]

/-- C17: the compat transform loses no information on a multimap, that is on the keys of a
Go map with their lists of values (`entries`): when the compat maps built from two multimaps
are equal, the two multimaps are equal; the decoder (a bare string is the list of that one
value, a list is itself) recovers every multimap from its compat map, and a compat map never
holds a list of length one. -/
theorem compat_injective_on_entries (hr₁ hr₂ : headersResponse) (gr₁ gr₂ : getResponse)
    (h₁ : hr₁.Headers.WF) (h₂ : hr₂.Headers.WF)
    (g₁ : gr₁.Args.WF ∧ gr₁.Headers.WF) (g₂ : gr₂.Args.WF ∧ gr₂.Headers.WF) :
    (hr₁.compat = hr₂.compat → hr₁.Headers.entries = hr₂.Headers.entries) ∧
    (gr₁.compat = gr₂.compat →
      gr₁.Args.entries = gr₂.Args.entries ∧ gr₁.Headers.entries = gr₂.Headers.entries) ∧
    (∃ c, hr₁.compat = .ok c ∧ decodeEntries c.Headers.entries = hr₁.Headers.entries ∧
      ∀ k xs, c.Headers.lookup k = some (.strings xs) → xs.len ≠ 1) ∧
    (∃ c, gr₁.compat = .ok c ∧ decodeEntries c.Args.entries = gr₁.Args.entries ∧
      decodeEntries c.Headers.entries = gr₁.Headers.entries ∧
      (∀ k xs, c.Args.lookup k = some (.strings xs) → xs.len ≠ 1) ∧
      ∀ k xs, c.Headers.lookup k = some (.strings xs) → xs.len ≠ 1) := by
  have hlen : ∀ M : GoMap (GoSlice String), M.WF → ∀ k xs,
      (GoMap.mk (compatEntries M.entries [])).lookup k = some (.strings xs) → xs.len ≠ 1 := by
    intro M hM k xs hk
    rw [lookup_compat M hM] at hk
    cases hl : M.lookup k with
    | none => rw [hl] at hk; cases hk
    | some vs =>
      rw [hl] at hk
      exact compatValue_strings_len vs xs (by simpa using hk)
  have hinj : ∀ M N : GoMap (GoSlice String), M.WF → N.WF →
      compatEntries M.entries [] = compatEntries N.entries [] → M.entries = N.entries := by
    intro M N hM hN heq
    rw [← decodeEntries_compatEntries M hM, ← decodeEntries_compatEntries N hN, heq]
  refine ⟨?_, ?_, ⟨_, headersResponse_compat_eq hr₁, decodeEntries_compatEntries _ h₁,
    hlen _ h₁⟩, ⟨_, getResponse_compat_eq gr₁, decodeEntries_compatEntries _ g₁.1,
    decodeEntries_compatEntries _ g₁.2, hlen _ g₁.1, hlen _ g₁.2⟩⟩
  · intro heq
    rw [headersResponse_compat_eq, headersResponse_compat_eq] at heq
    injection heq with heq
    injection heq with heq
    injection heq with heq
    exact hinj _ _ h₁ h₂ heq
  · intro heq
    rw [getResponse_compat_eq, getResponse_compat_eq] at heq
    injection heq with heq
    injection heq with ha hh _ _
    injection ha with ha
    injection hh with hh
    exact ⟨hinj _ _ g₁.1 g₂.1 ha, hinj _ _ g₁.2 g₂.2 hh⟩

/-- The statement of C17 on the sample responses: the decoder recovers their multimaps. -/
theorem compat_injective_on_entries_witness :
    (sampleHeadersResponse.Headers.WF ∧ sampleGetResponse.Args.WF ∧
      sampleGetResponse.Headers.WF) ∧
    (∃ c, sampleHeadersResponse.compat = .ok c ∧
      decodeEntries c.Headers.entries = [("Accept", .mk ["*/*"])]) ∧
    (∃ c, sampleGetResponse.compat = .ok c ∧
      decodeEntries c.Args.entries = [("a", .mk ["1", "2"])] ∧
      decodeEntries c.Headers.entries = [("Host", .mk ["example.org"])]) := by
  have hw : sampleHeadersResponse.Headers.WF := by decide
  have hg : sampleGetResponse.Args.WF ∧ sampleGetResponse.Headers.WF := by decide
  obtain ⟨_, _, ⟨c, hc, hd, _⟩, ⟨c', hc', ha, hh, _⟩⟩ :=
    compat_injective_on_entries sampleHeadersResponse sampleHeadersResponse
      sampleGetResponse sampleGetResponse hw hw hg hg
  exact ⟨⟨hw, hg.1, hg.2⟩, ⟨c, hc, hd⟩, ⟨c', hc', ha, hh⟩⟩

end httpbin
